import Mathlib

/-!
# A shallow embedding of `organize_photos.py`

This file models the photo-organizing program: EXIF date extraction,
`strptime`/`strftime`-based date formatting, collision-aware destination
naming, per-file placement, and directory traversal, all over an explicit
filesystem state.  Theorems below settle the specification claims.
-/

set_option maxHeartbeats 1000000

namespace OrganizePhotos

/-- Characters of a filename or metadata string (a Python `str`, modelled as a
list of characters). -/
abbrev Str : Type := List Char

/-- A filesystem path, as a list of name components. -/
abbrev FPath : Type := List Str

/-- The numeric value of a decimal digit character, or `none`. -/
def digitVal (c : Char) : Option Nat :=
  if '0' ≤ c ∧ c ≤ '9' then some (c.toNat - 48) else none

/-- A date-time at one-second resolution, no timezone (a naive Python
`datetime`). -/
structure PDateTime where
  year : Nat
  month : Nat
  day : Nat
  hour : Nat
  minute : Nat
  second : Nat
deriving DecidableEq

/-- Zero-padded two-digit rendering of a field value (model of `strftime`
`%m`/`%d`/`%H`/`%M`/`%S`; call sites only use values below 100). -/
def pad2 (n : Nat) : Str :=
  [Nat.digitChar (n / 10 % 10), Nat.digitChar (n % 10)]

/-- Zero-padded four-digit rendering of the year (model of `strftime` `%Y`;
`strptime` only produces years below 10000). -/
def pad4 (n : Nat) : Str :=
  [Nat.digitChar (n / 1000 % 10), Nat.digitChar (n / 100 % 10),
   Nat.digitChar (n / 10 % 10), Nat.digitChar (n % 10)]

/-!
## `strptime`

CPython's `_strptime` compiles each format directive to a regex alternation
and matches the whole format by ordered backtracking; leftover input raises
`ValueError`.  Each directive becomes a list of candidate (value, rest)
parses, in the regex's alternative order, and `tryCands` implements the
backtracking.
-/

/-- Candidate parses of a two-digit-class regex alternative: both characters
must be digits and the guard `f` must accept them. -/
def alt2 (f : Nat → Nat → Option Nat) : Str → List (Nat × Str)
  | c0 :: c1 :: rest =>
    match digitVal c0, digitVal c1 with
    | some a, some b =>
      match f a b with
      | some v => [(v, rest)]
      | none => []
    | _, _ => []
  | _ => []

/-- Candidate parses of a one-digit-class regex alternative. -/
def alt1 (f : Nat → Option Nat) : Str → List (Nat × Str)
  | c0 :: rest =>
    match digitVal c0 with
    | some a =>
      match f a with
      | some v => [(v, rest)]
      | none => []
    | none => []
  | [] => []

/-- Try candidate parses in order, returning the first whose continuation
succeeds (regex backtracking). -/
def tryCands : List (Nat × Str) → (Nat → Str → Option α) → Option α
  | [], _ => none
  | (v, r) :: t, k =>
    match k v r with
    | some x => some x
    | none => tryCands t k

/-- The characters matched by `\s` in a CPython `str` regex
(`Py_UNICODE_ISSPACE`): ASCII whitespace, the information separators, NEL,
NBSP and the Unicode space characters. -/
def isPySpace (c : Char) : Bool :=
  (9 ≤ c.toNat ∧ c.toNat ≤ 13) ∨ (28 ≤ c.toNat ∧ c.toNat ≤ 31) ∨
  c.toNat = 32 ∨ c.toNat = 133 ∨ c.toNat = 160 ∨ c.toNat = 5760 ∨
  (8192 ≤ c.toNat ∧ c.toNat ≤ 8202) ∨ c.toNat = 8232 ∨ c.toNat = 8233 ∨
  c.toNat = 8239 ∨ c.toNat = 8287 ∨ c.toNat = 12288

/-- `\s+`: `_strptime` replaces literal whitespace in the format with
`\s+`, so the format's space matches a nonempty whitespace run.  Maximal
munch is faithful here: the directive following the run starts with a digit,
which is never whitespace, so greedy matching needs no backtracking. -/
def wsPlus : Str → Option Str
  | c :: rest =>
    if isPySpace c then some (rest.dropWhile fun x => isPySpace x) else none
  | [] => none

/-- Candidate parse of the ` [1-9]` regex alternative of `%d`: a space
followed by a nonzero digit (a space-padded day). -/
def altSpace1 : Str → List (Nat × Str)
  | c0 :: c1 :: rest =>
    if c0 = ' ' then
      match digitVal c1 with
      | some b => if 1 ≤ b then [(b, rest)] else []
      | none => []
    else []
  | _ => []

/-- `%m`: `1[0-2]|0[1-9]|[1-9]`. -/
def monthCands (cs : Str) : List (Nat × Str) :=
  alt2 (fun a b => if a = 1 ∧ b ≤ 2 then some (10 + b) else none) cs ++
  alt2 (fun a b => if a = 0 ∧ 1 ≤ b then some b else none) cs ++
  alt1 (fun a => if 1 ≤ a then some a else none) cs

/-- `%d`: `3[0-1]|[1-2]\d|0[1-9]|[1-9]| [1-9]` (the last alternative is a
space-padded day). -/
def dayCands (cs : Str) : List (Nat × Str) :=
  alt2 (fun a b => if a = 3 ∧ b ≤ 1 then some (30 + b) else none) cs ++
  alt2 (fun a b => if 1 ≤ a ∧ a ≤ 2 then some (10 * a + b) else none) cs ++
  alt2 (fun a b => if a = 0 ∧ 1 ≤ b then some b else none) cs ++
  alt1 (fun a => if 1 ≤ a then some a else none) cs ++
  altSpace1 cs

/-- `%H`: `2[0-3]|[0-1]\d|\d`. -/
def hourCands (cs : Str) : List (Nat × Str) :=
  alt2 (fun a b => if a = 2 ∧ b ≤ 3 then some (20 + b) else none) cs ++
  alt2 (fun a b => if a ≤ 1 then some (10 * a + b) else none) cs ++
  alt1 (fun a => some a) cs

/-- `%M`: `[0-5]\d|\d`. -/
def minuteCands (cs : Str) : List (Nat × Str) :=
  alt2 (fun a b => if a ≤ 5 then some (10 * a + b) else none) cs ++
  alt1 (fun a => some a) cs

/-- `%S`: `6[0-1]|[0-5]\d|\d` (leap seconds pass the regex; the `datetime`
constructor rejects them afterwards). -/
def secondCands (cs : Str) : List (Nat × Str) :=
  alt2 (fun a b => if a = 6 ∧ b ≤ 1 then some (60 + b) else none) cs ++
  alt2 (fun a b => if a ≤ 5 then some (10 * a + b) else none) cs ++
  alt1 (fun a => some a) cs

/-- `%Y`: exactly four digits. -/
def parseYear4 : Str → Option (Nat × Str)
  | c0 :: c1 :: c2 :: c3 :: rest =>
    match digitVal c0, digitVal c1, digitVal c2, digitVal c3 with
    | some a, some b, some c, some d => some (((a * 10 + b) * 10 + c) * 10 + d, rest)
    | _, _, _, _ => none
  | _ => none

/-- Match a literal character of the format string. -/
def lit (ch : Char) : Str → Option Str
  | c :: rest => if c = ch then some rest else none
  | [] => none

/-- The regex match for format `"%Y:%m:%d %H:%M:%S"`: first match found by
ordered backtracking, together with the unconsumed rest. -/
def parseExifFields (cs : Str) : Option (PDateTime × Str) :=
  match parseYear4 cs with
  | none => none
  | some (y, cs) =>
    match lit ':' cs with
    | none => none
    | some cs =>
      tryCands (monthCands cs) fun mo cs =>
      (lit ':' cs).bind fun cs =>
      tryCands (dayCands cs) fun dd cs =>
      (wsPlus cs).bind fun cs =>
      tryCands (hourCands cs) fun hh cs =>
      (lit ':' cs).bind fun cs =>
      tryCands (minuteCands cs) fun mi cs =>
      (lit ':' cs).bind fun cs =>
      tryCands (secondCands cs) fun ss cs =>
      some (⟨y, mo, dd, hh, mi, ss⟩, cs)

/-- The regex match for format `"%Y%m%d%H%M.%S"` (used by `process_file` on
the `formatted_date` string before `os.utime`). -/
def parseCompactFields (cs : Str) : Option (PDateTime × Str) :=
  match parseYear4 cs with
  | none => none
  | some (y, cs) =>
    tryCands (monthCands cs) fun mo cs =>
    tryCands (dayCands cs) fun dd cs =>
    tryCands (hourCands cs) fun hh cs =>
    tryCands (minuteCands cs) fun mi cs =>
    (lit '.' cs).bind fun cs =>
    tryCands (secondCands cs) fun ss cs =>
    some (⟨y, mo, dd, hh, mi, ss⟩, cs)

/-- Gregorian leap year. -/
def isLeap (y : Nat) : Prop :=
  y % 4 = 0 ∧ (y % 100 ≠ 0 ∨ y % 400 = 0)

instance (y : Nat) : Decidable (isLeap y) := by
  unfold isLeap; infer_instance

/-- Days in a month (Python `calendar` rule, used by the `datetime`
constructor's validation). -/
def daysInMonth (y m : Nat) : Nat :=
  if m = 2 then (if isLeap y then 29 else 28)
  else if m = 4 ∨ m = 6 ∨ m = 9 ∨ m = 11 then 30
  else 31

/-- Validation performed by the `datetime` constructor (`MINYEAR = 1`,
`MAXYEAR = 9999`; leap seconds rejected). -/
def validDate (d : PDateTime) : Prop :=
  1 ≤ d.year ∧ d.year ≤ 9999 ∧ 1 ≤ d.month ∧ d.month ≤ 12 ∧
  1 ≤ d.day ∧ d.day ≤ daysInMonth d.year d.month ∧
  d.hour ≤ 23 ∧ d.minute ≤ 59 ∧ d.second ≤ 59

instance (d : PDateTime) : Decidable (validDate d) := by
  unfold validDate; infer_instance

/-- `datetime.strptime(s, "%Y:%m:%d %H:%M:%S")`, with `ValueError` as `none`:
the regex must match, the whole string must be consumed, and the `datetime`
constructor must accept the fields. -/
def strptimeExif (cs : Str) : Option PDateTime :=
  match parseExifFields cs with
  | some (d, []) => if validDate d then some d else none
  | _ => none

/-- `datetime.strptime(s, "%Y%m%d%H%M.%S")`, with `ValueError` as `none`. -/
def strptimeCompact (cs : Str) : Option PDateTime :=
  match parseCompactFields cs with
  | some (d, []) => if validDate d then some d else none
  | _ => none

/-- Unpadded decimal digits of a number (`f"{counter}"`, and glibc's
`%Y`), via structural fuel. -/
def natDigitsAux : Nat → Nat → Str
  | 0, _ => []
  | fuel + 1, n =>
    if n < 10 then [Nat.digitChar n]
    else natDigitsAux fuel (n / 10) ++ [Nat.digitChar (n % 10)]

/-- Unpadded decimal rendering. -/
def natDigits (n : Nat) : Str :=
  natDigitsAux (n + 1) n

/-- `strftime("%Y")`: CPython delegates to the platform `strftime`, and glibc
prints the year unpadded — `'999'` for year 999, four digits only from year
1000 on. -/
def fmtYear (y : Nat) : Str :=
  natDigits y

/-- `date.strftime("%Y%m%d%H%M.%S")`: the `formatted_date` string. -/
def fmtCompact (d : PDateTime) : Str :=
  fmtYear d.year ++ (pad2 d.month ++ (pad2 d.day ++ (pad2 d.hour ++
    (pad2 d.minute ++ '.' :: pad2 d.second))))

/-- `date.strftime("%Y%m%d_%H%M%S")`: the `timestamp` base-filename string. -/
def fmtBase (d : PDateTime) : Str :=
  fmtYear d.year ++ (pad2 d.month ++ (pad2 d.day ++ '_' ::
    (pad2 d.hour ++ (pad2 d.minute ++ pad2 d.second))))

/-- The dictionary returned by `format_date`. -/
structure DateInfo where
  year : Str
  month : Str
  formatted_date : Str
  timestamp : Str
deriving DecidableEq

/-- `format_date`: strict parse of the raw EXIF string, then the four
`strftime` renderings; `ValueError` is caught and yields `none`. -/
def format_date (cs : Str) : Option DateInfo :=
  match strptimeExif cs with
  | none => none
  | some d => some ⟨fmtYear d.year, pad2 d.month, fmtCompact d, fmtBase d⟩

/-!
## The filesystem model

A filesystem is an association list of regular files (path to content and
times) together with a list of existing directories.  EXIF data is a function
of a file's bytes, so the extractor and the checksum comparator are
parameterized by `exifOf` and `digest` functions.
-/

/-- What `PIL.Image.open(p)._getexif()` yields for a file with these bytes:
an exception, no EXIF block, or a tag table. -/
inductive ExifData where
  | err : ExifData
  | noData : ExifData
  | tags : List (Nat × Str) → ExifData
deriving DecidableEq

/-- A regular file: its bytes, modification time, and access time. -/
structure FileData where
  content : List Nat
  mtime : PDateTime
  atime : Nat
deriving DecidableEq

/-- The filesystem state. -/
structure FS where
  files : List (FPath × FileData)
  dirs : List FPath
deriving DecidableEq

/-- First association for a path. -/
def assocFind : List (FPath × FileData) → FPath → Option FileData
  | [], _ => none
  | (k, v) :: t, p => if p = k then some v else assocFind t p

/-- Write a file at a path (create or overwrite). -/
def assocSet (l : List (FPath × FileData)) (k : FPath) (v : FileData) :
    List (FPath × FileData) :=
  (k, v) :: l

/-- Delete the file at a path. -/
def assocErase : List (FPath × FileData) → FPath → List (FPath × FileData)
  | [], _ => []
  | (k', v) :: t, k => if k' = k then assocErase t k else (k', v) :: assocErase t k

/-- Update the file at a path, if present. -/
def assocUpdate : List (FPath × FileData) → FPath → (FileData → FileData) →
    List (FPath × FileData)
  | [], _, _ => []
  | (k', v) :: t, k, f =>
    if k' = k then (k', f v) :: assocUpdate t k f
    else (k', v) :: assocUpdate t k f

/-- `Path.exists()`: a file or a directory is present at the path. -/
def pathExists (fs : FS) (p : FPath) : Prop :=
  (assocFind fs.files p).isSome = true ∨ p ∈ fs.dirs

instance (fs : FS) (p : FPath) : Decidable (pathExists fs p) := by
  unfold pathExists; infer_instance

/-- `Path.is_file()`. -/
def isFile (fs : FS) (p : FPath) : Prop :=
  (assocFind fs.files p).isSome = true

instance (fs : FS) (p : FPath) : Decidable (isFile fs p) := by
  unfold isFile; infer_instance

/-- The bytes of the file at a path (call sites only read existing files). -/
def contentAt (fs : FS) (p : FPath) : List Nat :=
  match assocFind fs.files p with
  | some fd => fd.content
  | none => []

/-- Errors that escape as uncaught Python exceptions. -/
inductive PErr where
  | fileExists : FPath → PErr
  | notFound : FPath → PErr
  | badParse : PErr
  | fuelOut : PErr
deriving DecidableEq

/-- `dest_subdir.mkdir(parents=True, exist_ok=True)`: fails if a regular file
occupies the path or an ancestor; otherwise records the path and all its
ancestors as directories. -/
def mkdirParents (fs : FS) (p : FPath) : Except PErr FS :=
  if p.inits.any (fun q => (assocFind fs.files q).isSome) then
    .error (.fileExists p)
  else
    .ok { fs with dirs := p.inits ++ fs.dirs }

/-- `os.utime(p, (atime, mtime))` on an existing file. -/
def utime (fs : FS) (p : FPath) (at' : Nat) (mt : PDateTime) : FS :=
  { fs with files := assocUpdate fs.files p (fun fd => { fd with atime := at', mtime := mt }) }

/-- `shutil.copy2(src, dst)`: copies bytes and the times set by `utime`. -/
def copy2 (fs : FS) (src dst : FPath) : Except PErr FS :=
  match assocFind fs.files src with
  | none => .error (.notFound src)
  | some fd =>
    if dst ∈ fs.dirs then .error (.fileExists dst)
    else .ok { fs with files := assocSet fs.files dst fd }

/-- `os.remove(p)`. -/
def removeFile (fs : FS) (p : FPath) : Except PErr FS :=
  match assocFind fs.files p with
  | none => .error (.notFound p)
  | some _ => .ok { fs with files := assocErase fs.files p }

/-!
## Name derivation
-/

/-- The last path component. -/
def lastComponent (p : FPath) : Str :=
  p.getLastD []

/-- Split a name at its last dot: `(before, after)`, neither containing the
dot, or `none` if there is no dot. -/
def splitLastDot : Str → Option (Str × Str)
  | [] => none
  | c :: cs =>
    match splitLastDot cs with
    | some (b, a) => some (c :: b, a)
    | none => if c = '.' then some ([], cs) else none

/-- `PurePath.suffix`: the final dot-led component, empty when the dot is
first or last in the name. -/
def pathSuffix (name : Str) : Str :=
  match splitLastDot name with
  | some (b, a) => if b ≠ [] ∧ a ≠ [] then '.' :: a else []
  | none => []

/-- `file_path.suffix.lower().lstrip('.')`. -/
def extOf (p : FPath) : Str :=
  ((pathSuffix (lastComponent p)).map Char.toLower).dropWhile (fun c => c = '.')

/-- The candidate file name probed at loop iteration `counter`:
`base.ext` first, then `base_1.ext`, `base_2.ext`, …. -/
def candName (base ext : Str) : Nat → Str
  | 0 => base ++ '.' :: ext
  | k + 1 => base ++ '_' :: (natDigits (k + 1) ++ '.' :: ext)

/-- Outcome of `generate_unique_filename`: a duplicate-skip naming the
existing path (the source returns `None` after reporting it), or a free
destination path. -/
inductive NameResult where
  | dup : FPath → NameResult
  | fresh : FPath → NameResult
deriving DecidableEq

/-- The `while dest_path.exists()` loop of `generate_unique_filename`,
with structural fuel (proved sufficient below). -/
def gufLoop (digest : List Nat → Nat) (fs : FS) (base ext : Str)
    (dest_dir : FPath) (source_file : FPath) : Nat → Nat → Option NameResult
  | 0, _ => none
  | fuel + 1, counter =>
    let p := dest_dir ++ [candName base ext counter]
    if pathExists fs p then
      if isFile fs p then
        if digest (contentAt fs p) = digest (contentAt fs source_file) then
          some (.dup p)
        else gufLoop digest fs base ext dest_dir source_file fuel (counter + 1)
      else gufLoop digest fs base ext dest_dir source_file fuel (counter + 1)
    else some (.fresh p)

/-- Fuel that always suffices: one more than the number of recorded paths. -/
def fsSize (fs : FS) : Nat :=
  fs.files.length + fs.dirs.length

/-- `generate_unique_filename(base_name, ext, dest_dir, source_file)`. -/
def generate_unique_filename (digest : List Nat → Nat) (fs : FS)
    (base ext : Str) (dest_dir : FPath) (source_file : FPath) :
    Option NameResult :=
  gufLoop digest fs base ext dest_dir source_file (fsSize fs + 1) 0

/-!
## Placement and traversal
-/

/-- `get_exif_date`: open the image, read the tag table, and return the first
truthy value among tags 36867, 36868, 306; every exception is caught and
yields `None`. -/
def firstDateTag : List Nat → List (Nat × Str) → Option Str
  | [], _ => none
  | t :: ts, l =>
    match l.lookup t with
    | some v => if v ≠ [] then some v else firstDateTag ts l
    | none => firstDateTag ts l

/-- The fixed tag priority: DateTimeOriginal, DateTimeDigitized, DateTime. -/
def date_tags : List Nat := [36867, 36868, 306]

/-- `get_exif_date(file_path)`. -/
def get_exif_date (exifOf : List Nat → ExifData) (fs : FS) (p : FPath) :
    Option Str :=
  match assocFind fs.files p with
  | none => none
  | some fd =>
    match exifOf fd.content with
    | .err => none
    | .noData => none
    | .tags l => firstDateTag date_tags l

/-- The observable per-file outcome (spec §3 `PlacementResult`). -/
inductive PlacementResult where
  | placed : FPath → FPath → PlacementResult
  | skippedDuplicate : FPath → FPath → PlacementResult
  | skippedNoDate : FPath → PlacementResult
  | skippedInvalidDate : FPath → PlacementResult
deriving DecidableEq

/-- A per-file step either completes with a result or raises an uncaught
exception. -/
inductive StepOut where
  | ok : PlacementResult → StepOut
  | err : PErr → StepOut
deriving DecidableEq

/-- `process_file(file_path, dest_dir)`: extraction, formatting, directory
creation, `os.utime`, unique naming, copy, and source removal, in source
order; no exception handling around steps 3–7. -/
def process_file (digest : List Nat → Nat) (exifOf : List Nat → ExifData)
    (fs : FS) (file_path : FPath) (dest_dir : FPath) (now : Nat) :
    FS × StepOut :=
  match get_exif_date exifOf fs file_path with
  | none => (fs, .ok (.skippedNoDate file_path))
  | some ds =>
    match format_date ds with
    | none => (fs, .ok (.skippedInvalidDate file_path))
    | some info =>
      let dest_subdir := dest_dir ++ [info.year, info.year ++ '-' :: info.month]
      match mkdirParents fs dest_subdir with
      | .error e => (fs, .err e)
      | .ok fs1 =>
        match strptimeCompact info.formatted_date with
        | none => (fs1, .err .badParse)
        | some mt =>
          let fs2 := utime fs1 file_path now mt
          match generate_unique_filename digest fs2 info.timestamp (extOf file_path)
              dest_subdir file_path with
          | none => (fs2, .err .fuelOut)
          | some (.dup existing) => (fs2, .ok (.skippedDuplicate file_path existing))
          | some (.fresh dest_file) =>
            match copy2 fs2 file_path dest_file with
            | .error e => (fs2, .err e)
            | .ok fs3 =>
              match removeFile fs3 file_path with
              | .error e => (fs3, .err e)
              | .ok fs4 => (fs4, .ok (.placed file_path dest_file))

/-- `file.lower().endswith(('.jpg', '.jpeg', '.png'))`. -/
def eligible (name : Str) : Prop :=
  ('.' :: 'j' :: 'p' :: 'g' :: []).IsSuffix (name.map Char.toLower) ∨
  ('.' :: 'j' :: 'p' :: 'e' :: 'g' :: []).IsSuffix (name.map Char.toLower) ∨
  ('.' :: 'p' :: 'n' :: 'g' :: []).IsSuffix (name.map Char.toLower)

instance (name : Str) : Decidable (eligible name) := by
  unfold eligible; infer_instance

/-- `traverse_directory`, over the walk order of eligible and ineligible
entries: processes each eligible file in turn; an uncaught exception aborts
the whole traversal, returning the partial state, the results so far, and the
exception. -/
def traverse_files (digest : List Nat → Nat) (exifOf : List Nat → ExifData)
    (fs : FS) (walk : List FPath) (dest_dir : FPath) (now : Nat) :
    FS × List PlacementResult × Option PErr :=
  match walk with
  | [] => (fs, [], none)
  | f :: rest =>
    if eligible (lastComponent f) then
      match process_file digest exifOf fs f dest_dir now with
      | (fs', .ok r) =>
        match traverse_files digest exifOf fs' rest dest_dir now with
        | (fs'', rs, e) => (fs'', r :: rs, e)
      | (fs', .err e) => (fs', [], some e)
    else traverse_files digest exifOf fs rest dest_dir now

/-!
## Spec-side definitions and concrete fixtures
-/

/-- Modelled from the spec's words (§4.2): the exact pattern
`YYYY:MM:DD HH:MM:SS` — four digits, colon, two digits, colon, two digits,
space, two digits, colon, two digits, colon, two digits. -/
def specStrictPattern (cs : Str) : Prop :=
  cs.length = 19 ∧
  (∀ i ∈ [0, 1, 2, 3, 5, 6, 8, 9, 11, 12, 14, 15, 17, 18],
    (cs.getD i ' ').isDigit = true) ∧
  cs.getD 4 ' ' = ':' ∧ cs.getD 7 ' ' = ':' ∧ cs.getD 10 ' ' = ' ' ∧
  cs.getD 13 ' ' = ':' ∧ cs.getD 16 ' ' = ':'

instance (cs : Str) : Decidable (specStrictPattern cs) := by
  unfold specStrictPattern; infer_instance

/-- First truthy value of a candidate list (spec §4.1: first non-empty value
wins). -/
def firstNonEmpty : List (Option Str) → Option Str
  | [] => none
  | some v :: t => if v ≠ [] then some v else firstNonEmpty t
  | none :: t => firstNonEmpty t

/-- A concrete content digest for witnesses. -/
def wDigest : List Nat → Nat :=
  fun l => l.foldl (fun a b => a * 256 + b + 1) 0

/-- A concrete EXIF extractor for witnesses: every file carries the same
original-capture date. -/
def wExif : List Nat → ExifData :=
  fun _ => .tags [(36867, "2023:05:14 10:30:00".toList)]

def srcA : FPath := ["s".toList, "a.jpg".toList]

def srcB : FPath := ["s".toList, "b.jpg".toList]

def outDir : FPath := ["o".toList]

def dstBase : FPath :=
  ["o".toList, "2023".toList, "2023-05".toList, "20230514_103000.jpg".toList]

def dstOne : FPath :=
  ["o".toList, "2023".toList, "2023-05".toList, "20230514_103000_1.jpg".toList]

def oDirs : List FPath :=
  [["o".toList], ["o".toList, "2023".toList],
   ["o".toList, "2023".toList, "2023-05".toList]]

def t0 : PDateTime := ⟨2000, 1, 1, 0, 0, 0⟩

def d2023 : PDateTime := ⟨2023, 5, 14, 10, 30, 0⟩

/-- Tag table with an empty original-capture value: the extractor must skip
the falsy value and fall through to the plain modification-time tag. -/
def wTags : List (Nat × Str) :=
  [(36867, []), (306, "2023:05:14 10:30:00".toList)]

/-- EXIF extractor for the C6 witness. -/
def wExifSparse : List Nat → ExifData :=
  fun _ => .tags wTags

/-- Fixture for C1: two eligible source files; a regular file occupies the
destination year path, so step 3 (mkdir) raises an uncaught error. -/
def c1fs : FS :=
  ⟨[(srcA, ⟨[1], t0, 0⟩), (srcB, ⟨[2], t0, 0⟩),
    (["o".toList, "2023".toList], ⟨[], t0, 0⟩)],
   [["o".toList]]⟩

/-- Fixture for C3: the destination directory holds a file with the source's
exact content, but under the suffixed name `…_1.jpg` while the base name is
free. -/
def c3fs : FS :=
  ⟨[(srcA, ⟨[1], t0, 0⟩), (dstOne, ⟨[1], t0, 0⟩)], oDirs⟩

/-- Fixture for a clean placement: one source file, an empty destination. -/
def cleanFs : FS :=
  ⟨[(srcA, ⟨[1], t0, 0⟩)], [["o".toList]]⟩

/-- Fixture for a duplicate skip: the destination already holds the identical
file at the base name. -/
def dupFs : FS :=
  ⟨[(srcA, ⟨[1], t0, 0⟩), (dstBase, ⟨[1], d2023, 3⟩)], oDirs⟩

/-- Fixture for a name collision: the base name is taken by a file with
different content. -/
def collideFs : FS :=
  ⟨[(srcA, ⟨[1], t0, 0⟩), (dstBase, ⟨[2], d2023, 3⟩)], oDirs⟩

/-- EXIF extractor whose capture year is below 1000: `strftime("%Y")`
renders it unpadded, so the compact string re-parses to a different year. -/
def wExif999 : List Nat → ExifData :=
  fun _ => .tags [(36867, "0999:05:14 10:30:00".toList)]

def d999 : PDateTime := ⟨999, 5, 14, 10, 30, 0⟩

def d9990 : PDateTime := ⟨9990, 5, 14, 10, 30, 0⟩

/-- The path a year-999 capture date really lands at: the year directory is
the three-character `999`. -/
def dst999 : FPath :=
  ["o".toList, "999".toList, "999-05".toList, "9990514_103000.jpg".toList]

/-- Duplicate fixture for the year-999 date: the destination already holds
the identical file at the name the program derives. -/
def dup999Fs : FS :=
  ⟨[(srcA, ⟨[1], t0, 0⟩), (dst999, ⟨[1], t0, 3⟩)],
   [["o".toList], ["o".toList, "999".toList],
    ["o".toList, "999".toList, "999-05".toList]]⟩

/-- Fixture for C10: a directory occupies the base candidate name. -/
def dirCandFs : FS :=
  ⟨[(srcA, ⟨[1], t0, 0⟩)], oDirs ++ [dstBase]⟩

/-!
## Decimal counters and candidate names
-/

theorem natDigitsAux_congr (fuel : Nat) : ∀ fuel' n, n < fuel → n < fuel' →
    natDigitsAux fuel n = natDigitsAux fuel' n := by
  induction fuel with
  | zero => omega
  | succ fuel ih =>
    intro fuel' n h h'
    match fuel', h' with
    | fuel' + 1, _ =>
      rw [natDigitsAux, natDigitsAux]
      split
      · rfl
      · next h10 =>
        have hlt : n / 10 < n := Nat.div_lt_self (by omega) (by omega)
        rw [ih fuel' (n / 10) (by omega) (by omega)]

/-- The recursion satisfied by the decimal rendering. -/
theorem natDigits_eq (n : Nat) :
    natDigits n =
      if n < 10 then [Nat.digitChar n]
      else natDigits (n / 10) ++ [Nat.digitChar (n % 10)] := by
  rw [natDigits, natDigitsAux]
  split
  · rfl
  · next h10 =>
    have hlt : n / 10 < n := Nat.div_lt_self (by omega) (by omega)
    rw [natDigits, natDigitsAux_congr n (n / 10 + 1) (n / 10) (by omega) (by omega)]

theorem natDigits_ne_nil (n : Nat) : natDigits n ≠ [] := by
  rw [natDigits_eq]
  split
  · simp
  · simp

theorem digitChar_inj (a b : Nat) (ha : a < 10) (hb : b < 10)
    (h : Nat.digitChar a = Nat.digitChar b) : a = b := by
  interval_cases a <;> interval_cases b <;> first | rfl | (exact absurd h (by decide))

theorem natDigits_mem_digit (n : Nat) :
    ∀ c ∈ natDigits n, ∃ k, k < 10 ∧ c = Nat.digitChar k := by
  induction n using Nat.strong_induction_on with
  | _ n ih =>
    rw [natDigits_eq]
    split
    · next h =>
      intro c hc
      simp at hc
      exact ⟨n, h, hc⟩
    · next h =>
      intro c hc
      rcases List.mem_append.1 hc with hc | hc
      · exact ih (n / 10) (Nat.div_lt_self (by omega) (by omega)) c hc
      · simp at hc
        exact ⟨n % 10, by omega, hc⟩

theorem natDigits_no_dot (n : Nat) : '.' ∉ natDigits n := by
  intro h
  obtain ⟨k, hk, he⟩ := natDigits_mem_digit n '.' h
  interval_cases k <;> exact absurd he (by decide)

theorem natDigits_inj : ∀ a b : Nat, natDigits a = natDigits b → a = b := by
  intro a
  induction a using Nat.strong_induction_on with
  | _ a ih =>
    intro b h
    by_cases ha : a < 10 <;> by_cases hb : b < 10
    · rw [natDigits_eq a, if_pos ha, natDigits_eq b, if_pos hb] at h
      simp at h
      exact digitChar_inj a b ha hb h
    · rw [natDigits_eq a, if_pos ha, natDigits_eq b, if_neg hb] at h
      obtain ⟨x, xs, hnb⟩ : ∃ x xs, natDigits (b / 10) = x :: xs := by
        cases hnb : natDigits (b / 10) with
        | nil => exact absurd hnb (natDigits_ne_nil _)
        | cons x xs => exact ⟨x, xs, rfl⟩
      rw [hnb] at h
      have := congrArg List.length h
      simp at this
    · rw [natDigits_eq a, if_neg ha, natDigits_eq b, if_pos hb] at h
      obtain ⟨x, xs, hna⟩ : ∃ x xs, natDigits (a / 10) = x :: xs := by
        cases hna : natDigits (a / 10) with
        | nil => exact absurd hna (natDigits_ne_nil _)
        | cons x xs => exact ⟨x, xs, rfl⟩
      rw [hna] at h
      have := congrArg List.length h
      simp at this
    · rw [natDigits_eq a, if_neg ha, natDigits_eq b, if_neg hb] at h
      have h' := congrArg List.reverse h
      simp [List.reverse_append] at h'
      obtain ⟨hmod, hrev⟩ := h'
      have hdiv : a / 10 = b / 10 :=
        ih (a / 10) (Nat.div_lt_self (by omega) (by omega)) (b / 10) hrev
      have : a % 10 = b % 10 := digitChar_inj _ _ (by omega) (by omega) hmod
      omega

/-- For four-digit years the unpadded rendering coincides with the padded
one. -/
theorem natDigits_eq_pad4 (y : Nat) (h1 : 1000 ≤ y) (h2 : y ≤ 9999) :
    natDigits y = pad4 y := by
  have e1 : y / 10 / 10 = y / 100 := by omega
  have e2 : y / 100 / 10 = y / 1000 := by omega
  have e3 : y / 1000 % 10 = y / 1000 := by omega
  rw [natDigits_eq y, if_neg (by omega), natDigits_eq (y / 10),
    if_neg (by omega), e1, natDigits_eq (y / 100), if_neg (by omega), e2,
    natDigits_eq (y / 1000), if_pos (by omega)]
  simp [pad4, e3]

/-!
## Parsing lemmas

The `formatted_date` string written by `format_date` parses back (in
`process_file`) to exactly the capture date.
-/

theorem digitVal_digitChar (k : Nat) (h : k < 10) :
    digitVal (Nat.digitChar k) = some k := by
  interval_cases k <;> decide

theorem alt2_pad (f : Nat → Nat → Option Nat) (n : Nat) (r : Str) :
    alt2 f (pad2 n ++ r) =
      (match f (n / 10 % 10) (n % 10) with
       | some v => [(v, r)]
       | none => []) := by
  simp [pad2, alt2, digitVal_digitChar (n / 10 % 10) (by omega),
    digitVal_digitChar (n % 10) (by omega)]

theorem alt1_pad (f : Nat → Option Nat) (n : Nat) (r : Str) :
    alt1 f (pad2 n ++ r) =
      (match f (n / 10 % 10) with
       | some v => [(v, Nat.digitChar (n % 10) :: r)]
       | none => []) := by
  simp [pad2, alt1, digitVal_digitChar (n / 10 % 10) (by omega)]

theorem digitChar_ne_space (k : Nat) (h : k < 10) : Nat.digitChar k ≠ ' ' := by
  interval_cases k <;> decide

theorem altSpace1_pad (n : Nat) (r : Str) : altSpace1 (pad2 n ++ r) = [] := by
  simp [pad2, altSpace1, digitChar_ne_space (n / 10 % 10) (by omega)]

theorem monthCands_pad (mo : Nat) (h1 : 1 ≤ mo) (h2 : mo ≤ 12) (r : Str) :
    ∃ t, monthCands (pad2 mo ++ r) = (mo, r) :: t := by
  rw [monthCands, alt2_pad, alt2_pad, alt1_pad]
  rcases Nat.lt_or_ge mo 10 with h | h
  · have e1 : mo / 10 % 10 = 0 := by omega
    have e2 : mo % 10 = mo := by omega
    rw [e1, e2]
    simp [h1]
  · have e1 : mo / 10 % 10 = 1 := by omega
    rw [e1]
    have e2 : 10 + mo % 10 = mo := by omega
    have e3 : mo % 10 ≤ 2 := by omega
    simp [e2, e3]

theorem dayCands_pad (dd : Nat) (h1 : 1 ≤ dd) (h2 : dd ≤ 31) (r : Str) :
    ∃ t, dayCands (pad2 dd ++ r) = (dd, r) :: t := by
  rw [dayCands, alt2_pad, alt2_pad, alt2_pad, alt1_pad, altSpace1_pad]
  rcases Nat.lt_or_ge dd 10 with h | h
  · have e1 : dd / 10 % 10 = 0 := by omega
    have e2 : dd % 10 = dd := by omega
    rw [e1, e2]
    simp [h1]
  · rcases Nat.lt_or_ge dd 30 with h' | h'
    · have e1 : dd / 10 % 10 = 1 ∨ dd / 10 % 10 = 2 := by omega
      have e2 : 10 * (dd / 10 % 10) + dd % 10 = dd := by omega
      rcases e1 with e1 | e1 <;> rw [e1] at e2 ⊢ <;> simp_arith [e2]
    · have e1 : dd / 10 % 10 = 3 := by omega
      rw [e1]
      have e2 : 30 + dd % 10 = dd := by omega
      have e3 : dd % 10 ≤ 1 := by omega
      simp [e2, e3]

theorem hourCands_pad (hh : Nat) (h2 : hh ≤ 23) (r : Str) :
    ∃ t, hourCands (pad2 hh ++ r) = (hh, r) :: t := by
  rw [hourCands, alt2_pad, alt2_pad, alt1_pad]
  rcases Nat.lt_or_ge hh 20 with h | h
  · have e1 : hh / 10 % 10 ≤ 1 := by omega
    have e2 : 10 * (hh / 10 % 10) + hh % 10 = hh := by omega
    have e3 : ¬(hh / 10 % 10 = 2) := by omega
    simp [e1, e2, e3]
  · have e1 : hh / 10 % 10 = 2 := by omega
    rw [e1]
    have e2 : 20 + hh % 10 = hh := by omega
    have e3 : hh % 10 ≤ 3 := by omega
    simp [e2, e3]

theorem minuteCands_pad (mi : Nat) (h2 : mi ≤ 59) (r : Str) :
    ∃ t, minuteCands (pad2 mi ++ r) = (mi, r) :: t := by
  rw [minuteCands, alt2_pad, alt1_pad]
  have e1 : mi / 10 % 10 ≤ 5 := by omega
  have e2 : 10 * (mi / 10 % 10) + mi % 10 = mi := by omega
  simp [e1, e2]

theorem secondCands_pad (ss : Nat) (h2 : ss ≤ 59) (r : Str) :
    ∃ t, secondCands (pad2 ss ++ r) = (ss, r) :: t := by
  rw [secondCands, alt2_pad, alt2_pad, alt1_pad]
  have e1 : ss / 10 % 10 ≤ 5 := by omega
  have e2 : 10 * (ss / 10 % 10) + ss % 10 = ss := by omega
  have e3 : ¬(ss / 10 % 10 = 6) := by omega
  simp [e1, e2, e3]

theorem parseYear4_pad (y : Nat) (h : y ≤ 9999) (r : Str) :
    parseYear4 (pad4 y ++ r) = some (y, r) := by
  have e : ((y / 1000 % 10 * 10 + y / 100 % 10) * 10 + y / 10 % 10) * 10 + y % 10 = y := by
    omega
  simp [pad4, parseYear4, digitVal_digitChar (y / 1000 % 10) (by omega),
    digitVal_digitChar (y / 100 % 10) (by omega),
    digitVal_digitChar (y / 10 % 10) (by omega),
    digitVal_digitChar (y % 10) (by omega), e]

theorem tryCands_head {α : Type} (v : Nat) (r : Str) (t : List (Nat × Str))
    (k : Nat → Str → Option α) (x : α) (h : k v r = some x) :
    tryCands ((v, r) :: t) k = some x := by
  simp [tryCands, h]

theorem daysInMonth_le (y m : Nat) : daysInMonth y m ≤ 31 := by
  unfold daysInMonth
  split
  · split <;> omega
  · split <;> omega

/-- The `"%Y%m%d%H%M.%S"` regex matches the whole `formatted_date` string of
a valid date, recovering the date exactly. -/
theorem parseCompactFields_fmt (d : PDateTime) (h : validDate d)
    (hy : 1000 ≤ d.year) :
    parseCompactFields (fmtCompact d) = some (d, []) := by
  obtain ⟨hy1, hy2, hm1, hm2, hd1, hd2, hh, hmi, hs⟩ := h
  have hfy : fmtYear d.year = pad4 d.year := natDigits_eq_pad4 d.year hy hy2
  have hd31 : d.day ≤ 31 := le_trans hd2 (daysInMonth_le _ _)
  obtain ⟨t2, e2⟩ := monthCands_pad d.month hm1 hm2
    (pad2 d.day ++ (pad2 d.hour ++ (pad2 d.minute ++ '.' :: pad2 d.second)))
  obtain ⟨t3, e3⟩ := dayCands_pad d.day hd1 hd31
    (pad2 d.hour ++ (pad2 d.minute ++ '.' :: pad2 d.second))
  obtain ⟨t4, e4⟩ := hourCands_pad d.hour hh
    (pad2 d.minute ++ '.' :: pad2 d.second)
  obtain ⟨t5, e5⟩ := minuteCands_pad d.minute hmi ('.' :: pad2 d.second)
  obtain ⟨t6, e6⟩ := secondCands_pad d.second hs []
  rw [List.append_nil] at e6
  unfold parseCompactFields fmtCompact
  rw [hfy, parseYear4_pad d.year hy2]
  simp [e2, e3, e4, e5, e6, tryCands, lit, Option.bind]

/-- `datetime.strptime(formatted_date, "%Y%m%d%H%M.%S")` in `process_file`
recovers exactly the capture date parsed by `format_date`. -/
theorem strptimeCompact_fmtCompact (d : PDateTime) (h : validDate d)
    (hy : 1000 ≤ d.year) :
    strptimeCompact (fmtCompact d) = some d := by
  unfold strptimeCompact
  rw [parseCompactFields_fmt d h hy]
  simp [h]

/-- A successful strict parse always yields a `datetime`-valid date. -/
theorem strptimeExif_valid (cs : Str) (d : PDateTime)
    (h : strptimeExif cs = some d) : validDate d := by
  unfold strptimeExif at h
  split at h
  · split at h
    · cases h
      next h' _ => exact (by assumption)
    · cases h
  · cases h

/-- Inversion of `format_date`: success means the strict parse succeeded on a
valid date and all four fields are the `strftime` renderings of it. -/
theorem format_date_inv (cs : Str) (info : DateInfo)
    (h : format_date cs = some info) :
    ∃ d, strptimeExif cs = some d ∧ validDate d ∧
      info = ⟨fmtYear d.year, pad2 d.month, fmtCompact d, fmtBase d⟩ := by
  unfold format_date at h
  split at h
  · cases h
  · next d hd =>
    cases h
    exact ⟨d, hd, strptimeExif_valid cs d hd, rfl⟩

theorem candName_inj (base ext : Str) : ∀ i j : Nat,
    candName base ext i = candName base ext j → i = j := by
  have hlen : ∀ k, (candName base ext (k + 1)).length =
      base.length + ext.length + 2 + (natDigits (k + 1)).length := by
    intro k
    simp [candName]
    omega
  have hpos : ∀ n, 1 ≤ (natDigits n).length := by
    intro n
    cases hnd : natDigits n with
    | nil => exact absurd hnd (natDigits_ne_nil n)
    | cons x xs => simp
  intro i j h
  match i, j with
  | 0, 0 => rfl
  | 0, j + 1 =>
    have := congrArg List.length h
    rw [hlen j] at this
    simp [candName] at this
    have := hpos (j + 1)
    omega
  | i + 1, 0 =>
    have := congrArg List.length h
    rw [hlen i] at this
    simp [candName] at this
    have := hpos (i + 1)
    omega
  | i + 1, j + 1 =>
    simp only [candName] at h
    have h' := List.append_cancel_left h
    simp at h'
    have := natDigits_inj _ _ h'
    omega

/-!
## Association-list and filesystem lemmas
-/

theorem assocFind_set_self (l : List (FPath × FileData)) (k : FPath)
    (v : FileData) : assocFind (assocSet l k v) k = some v := by
  simp [assocSet, assocFind]

theorem assocFind_set_ne (l : List (FPath × FileData)) (k p : FPath)
    (v : FileData) (h : p ≠ k) : assocFind (assocSet l k v) p = assocFind l p := by
  simp [assocSet, assocFind, h]

theorem assocFind_erase_self (l : List (FPath × FileData)) (k : FPath) :
    assocFind (assocErase l k) k = none := by
  induction l with
  | nil => rfl
  | cons e t ih =>
    obtain ⟨k', v⟩ := e
    by_cases h : k' = k
    · simp [assocErase, h, ih]
    · simp [assocErase, assocFind, h, Ne.symm h, ih]

theorem assocFind_erase_ne (l : List (FPath × FileData)) (k p : FPath)
    (h : p ≠ k) : assocFind (assocErase l k) p = assocFind l p := by
  induction l with
  | nil => rfl
  | cons e t ih =>
    obtain ⟨k', v⟩ := e
    by_cases he : k' = k
    · have hp : p ≠ k' := fun hh => h (he ▸ hh)
      simp [assocErase, he, assocFind, hp, h, ih]
    · by_cases hp : p = k'
      · simp [assocErase, he, assocFind, hp]
      · simp [assocErase, he, assocFind, hp, ih]

theorem assocFind_update_self (l : List (FPath × FileData)) (k : FPath)
    (f : FileData → FileData) :
    assocFind (assocUpdate l k f) k = (assocFind l k).map f := by
  induction l with
  | nil => rfl
  | cons e t ih =>
    obtain ⟨k', v⟩ := e
    by_cases h : k' = k
    · subst h
      simp [assocUpdate, assocFind]
    · simp [assocUpdate, assocFind, h, Ne.symm h, ih]

theorem assocFind_update_ne (l : List (FPath × FileData)) (k p : FPath)
    (f : FileData → FileData) (h : p ≠ k) :
    assocFind (assocUpdate l k f) p = assocFind l p := by
  induction l with
  | nil => rfl
  | cons e t ih =>
    obtain ⟨k', v⟩ := e
    by_cases he : k' = k
    · have hp : p ≠ k' := fun hh => h (he ▸ hh)
      simp [assocUpdate, assocFind, he, hp, h, ih]
    · by_cases hp : p = k'
      · simp [assocUpdate, assocFind, he, hp]
      · simp [assocUpdate, assocFind, he, hp, ih]

theorem mkdirParents_ok (fs fs' : FS) (p : FPath)
    (h : mkdirParents fs p = .ok fs') :
    fs'.files = fs.files ∧ fs'.dirs = p.inits ++ fs.dirs := by
  unfold mkdirParents at h
  split at h
  · cases h
  · cases h
    exact ⟨rfl, rfl⟩

theorem self_mem_inits {α : Type} (l : List α) : l ∈ l.inits := by
  simp [List.mem_inits]

theorem dropLast_mem_inits {α : Type} (l : List α) (x : α) :
    l ∈ (l ++ [x]).inits := by
  simp [List.mem_inits]

/-- `utime` leaves every file's bytes unchanged. -/
theorem contentAt_utime (fs : FS) (p q : FPath) (at' : Nat) (mt : PDateTime) :
    contentAt (utime fs p at' mt) q = contentAt fs q := by
  unfold contentAt utime
  by_cases h : q = p
  · subst h
    rw [assocFind_update_self]
    cases assocFind fs.files q with
    | none => rfl
    | some fd => rfl
  · rw [assocFind_update_ne _ _ _ _ h]

theorem isFile_utime (fs : FS) (p q : FPath) (at' : Nat) (mt : PDateTime) :
    isFile (utime fs p at' mt) q ↔ isFile fs q := by
  unfold isFile utime
  by_cases h : q = p
  · subst h
    rw [assocFind_update_self]
    cases assocFind fs.files q with
    | none => simp
    | some fd => simp
  · rw [assocFind_update_ne _ _ _ _ h]

theorem pathExists_utime (fs : FS) (p q : FPath) (at' : Nat) (mt : PDateTime) :
    pathExists (utime fs p at' mt) q ↔ pathExists fs q := by
  unfold pathExists
  constructor
  · intro h
    rcases h with h | h
    · exact Or.inl ((isFile_utime fs p q at' mt).1 h)
    · exact Or.inr h
  · intro h
    rcases h with h | h
    · exact Or.inl ((isFile_utime fs p q at' mt).2 h)
    · exact Or.inr h

/-!
## The collision-probing loop
-/

theorem gufLoop_none (digest : List Nat → Nat) (fs : FS) (base ext : Str)
    (dd src : FPath) :
    ∀ fuel counter, gufLoop digest fs base ext dd src fuel counter = none →
      ∀ j, j < fuel → pathExists fs (dd ++ [candName base ext (counter + j)]) := by
  intro fuel
  induction fuel with
  | zero =>
    intro counter _ j hj
    omega
  | succ fuel ih =>
    intro counter h j hj
    simp only [gufLoop] at h
    split at h
    · next hex =>
      split at h
      · split at h
        · cases h
        · rcases Nat.eq_zero_or_pos j with hj0 | hjp
          · subst hj0
            simpa using hex
          · have hr := ih (counter + 1) h (j - 1) (by omega)
            have e : counter + 1 + (j - 1) = counter + j := by omega
            rwa [e] at hr
      · rcases Nat.eq_zero_or_pos j with hj0 | hjp
        · subst hj0
          simpa using hex
        · have hr := ih (counter + 1) h (j - 1) (by omega)
          have e : counter + 1 + (j - 1) = counter + j := by omega
          rwa [e] at hr
    · cases h

theorem gufLoop_fresh (digest : List Nat → Nat) (fs : FS) (base ext : Str)
    (dd src : FPath) :
    ∀ fuel counter p,
      gufLoop digest fs base ext dd src fuel counter = some (.fresh p) →
      ∃ k, k < fuel ∧ p = dd ++ [candName base ext (counter + k)] ∧
        ¬pathExists fs p ∧
        ∀ j, j < k → pathExists fs (dd ++ [candName base ext (counter + j)]) ∧
          (isFile fs (dd ++ [candName base ext (counter + j)]) →
            digest (contentAt fs (dd ++ [candName base ext (counter + j)])) ≠
              digest (contentAt fs src)) := by
  intro fuel
  induction fuel with
  | zero =>
    intro counter p h
    cases h
  | succ fuel ih =>
    intro counter p h
    simp only [gufLoop] at h
    split at h
    · next hex =>
      split at h
      · next hfile =>
        split at h
        · cases h
        · next hdig =>
          obtain ⟨k, hk, hp, hnex, hprobe⟩ := ih (counter + 1) p h
          have e : counter + 1 + k = counter + (k + 1) := by omega
          refine ⟨k + 1, by omega, by rw [hp, e], hnex, ?_⟩
          intro j hj
          rcases Nat.eq_zero_or_pos j with hj0 | hjp
          · subst hj0
            exact ⟨by simpa using hex, fun _ => by simpa using hdig⟩
          · have := hprobe (j - 1) (by omega)
            have e : counter + 1 + (j - 1) = counter + j := by omega
            rwa [e] at this
      · next hfile =>
        obtain ⟨k, hk, hp, hnex, hprobe⟩ := ih (counter + 1) p h
        have e : counter + 1 + k = counter + (k + 1) := by omega
        refine ⟨k + 1, by omega, by rw [hp, e], hnex, ?_⟩
        intro j hj
        rcases Nat.eq_zero_or_pos j with hj0 | hjp
        · subst hj0
          refine ⟨by simpa using hex, fun hf => absurd ?_ hfile⟩
          simpa using hf
        · have := hprobe (j - 1) (by omega)
          have e : counter + 1 + (j - 1) = counter + j := by omega
          rwa [e] at this
    · next hex =>
      cases h
      exact ⟨0, by omega, by simp, by simpa using hex, by omega⟩

theorem gufLoop_dup (digest : List Nat → Nat) (fs : FS) (base ext : Str)
    (dd src : FPath) :
    ∀ fuel counter p,
      gufLoop digest fs base ext dd src fuel counter = some (.dup p) →
      ∃ k, k < fuel ∧ p = dd ++ [candName base ext (counter + k)] ∧
        isFile fs p ∧
        digest (contentAt fs p) = digest (contentAt fs src) := by
  intro fuel
  induction fuel with
  | zero =>
    intro counter p h
    cases h
  | succ fuel ih =>
    intro counter p h
    simp only [gufLoop] at h
    split at h
    · next hex =>
      split at h
      · next hfile =>
        split at h
        · next hdig =>
          cases h
          exact ⟨0, by omega, by simp, by simpa using hfile, by simpa using hdig⟩
        · obtain ⟨k, hk, hp, hfi, hdi⟩ := ih (counter + 1) p h
          have e : counter + 1 + k = counter + (k + 1) := by omega
          exact ⟨k + 1, by omega, by rw [hp, e], hfi, hdi⟩
      · obtain ⟨k, hk, hp, hfi, hdi⟩ := ih (counter + 1) p h
        have e : counter + 1 + k = counter + (k + 1) := by omega
        exact ⟨k + 1, by omega, by rw [hp, e], hfi, hdi⟩
    · cases h

theorem assocFind_isSome_mem (l : List (FPath × FileData)) (p : FPath)
    (h : (assocFind l p).isSome = true) : p ∈ l.map Prod.fst := by
  induction l with
  | nil => exact Bool.noConfusion h
  | cons e t ih =>
    obtain ⟨k, v⟩ := e
    by_cases hp : p = k
    · rw [hp, List.map_cons]
      exact List.mem_cons_self _ _
    · rw [assocFind, if_neg hp] at h
      exact List.mem_cons_of_mem _ (ih h)

theorem pathExists_mem (fs : FS) (p : FPath) (h : pathExists fs p) :
    p ∈ fs.files.map Prod.fst ++ fs.dirs := by
  rcases h with h | h
  · exact List.mem_append_left _ (assocFind_isSome_mem _ _ h)
  · exact List.mem_append_right _ h

/-- Pigeonhole: the candidate paths are pairwise distinct, so they cannot all
be occupied by the finitely many recorded paths. -/
theorem cands_not_all_exist (fs : FS) (base ext : Str) (dd : FPath) :
    ¬ ∀ k, k ≤ fsSize fs → pathExists fs (dd ++ [candName base ext k]) := by
  intro hall
  have hinj : ∀ i j : Nat,
      dd ++ [candName base ext i] = dd ++ [candName base ext j] → i = j := by
    intro i j hij
    have h' := List.append_cancel_left hij
    simp at h'
    exact candName_inj base ext i j h'
  have hlen : (fs.files.map Prod.fst ++ fs.dirs).length = fsSize fs := by
    simp [fsSize]
  have hcard : (Finset.univ : Finset (Fin (fsSize fs + 1))).card ≤
      (fs.files.map Prod.fst ++ fs.dirs).toFinset.card := by
    apply Finset.card_le_card_of_injOn (fun a => dd ++ [candName base ext a.val])
    · intro a _
      exact List.mem_toFinset.2
        (pathExists_mem fs _ (hall a.val (Nat.lt_succ_iff.mp a.isLt)))
    · intro a _ b _ hab
      exact Fin.ext (hinj a.val b.val hab)
  rw [Finset.card_univ, Fintype.card_fin] at hcard
  have h2 : (fs.files.map Prod.fst ++ fs.dirs).toFinset.card ≤
      (fs.files.map Prod.fst ++ fs.dirs).length := List.toFinset_card_le _
  omega

/-- The probing loop never exhausts its fuel: `generate_unique_filename`
always returns a result (spec: the loop terminates). -/
theorem generate_unique_filename_some (digest : List Nat → Nat) (fs : FS)
    (base ext : Str) (dd src : FPath) :
    generate_unique_filename digest fs base ext dd src ≠ none := by
  intro h
  have hprobe := gufLoop_none digest fs base ext dd src (fsSize fs + 1) 0 h
  apply cands_not_all_exist fs base ext dd
  intro k hk
  have := hprobe k (by omega)
  simpa using this

/-!
## Inversion of `process_file`
-/

theorem get_exif_some_file (exifOf : List Nat → ExifData) (fs : FS) (p : FPath)
    (ds : Str) (h : get_exif_date exifOf fs p = some ds) :
    ∃ fd, assocFind fs.files p = some fd := by
  unfold get_exif_date at h
  split at h
  · cases h
  · next fd hfd => exact ⟨fd, hfd⟩

theorem mkdirParents_error (fs : FS) (p : FPath) (e : PErr)
    (h : mkdirParents fs p = .error e) : e = .fileExists p := by
  unfold mkdirParents at h
  split at h
  · cases h
    rfl
  · cases h

theorem copy2_ok (fs fs' : FS) (src dst : FPath)
    (h : copy2 fs src dst = .ok fs') :
    ∃ fd, assocFind fs.files src = some fd ∧
      fs' = { files := assocSet fs.files dst fd, dirs := fs.dirs } := by
  unfold copy2 at h
  split at h
  · cases h
  · next fd hfd =>
    split at h
    · cases h
    · cases h
      exact ⟨fd, hfd, rfl⟩

theorem removeFile_ok (fs fs' : FS) (p : FPath)
    (h : removeFile fs p = .ok fs') :
    fs' = { files := assocErase fs.files p, dirs := fs.dirs } := by
  unfold removeFile at h
  split at h
  · cases h
  · cases h
    rfl

theorem pair_eq_fst {A B : Type} {a c : A} {b d : B} (h : (a, b) = (c, d)) :
    a = c :=
  congrArg Prod.fst h

theorem pair_eq_snd {A B : Type} {a c : A} {b d : B} (h : (a, b) = (c, d)) :
    b = d :=
  congrArg Prod.snd h

/-- Full case analysis of one `process_file` run: exactly six shapes are
reachable — no-date skip, invalid-date skip, mkdir failure, an uncaught
`ValueError` from re-parsing the `formatted_date` string (reachable for some
capture years below 1000, whose unpadded rendering does not re-parse),
duplicate skip, and placement.  The fuel bound and the freshness of the
destination rule the copy/remove error branches out.  `mt` is the date the
re-parse yields; it equals the capture date only when the year re-parses to
itself (in particular, for years 1000–9999). -/
theorem process_file_inv (digest : List Nat → Nat) (exifOf : List Nat → ExifData)
    (fs : FS) (p dest : FPath) (now : Nat) (fs' : FS) (o : StepOut)
    (h : process_file digest exifOf fs p dest now = (fs', o)) :
    (o = .ok (.skippedNoDate p) ∧ fs' = fs ∧ get_exif_date exifOf fs p = none)
    ∨ (∃ ds, get_exif_date exifOf fs p = some ds ∧ format_date ds = none ∧
        o = .ok (.skippedInvalidDate p) ∧ fs' = fs)
    ∨ (∃ ds d, get_exif_date exifOf fs p = some ds ∧ strptimeExif ds = some d ∧
        o = .err (.fileExists (dest ++ [fmtYear d.year, fmtYear d.year ++ '-' :: pad2 d.month])) ∧
        fs' = fs ∧
        mkdirParents fs (dest ++ [fmtYear d.year, fmtYear d.year ++ '-' :: pad2 d.month]) =
          .error (.fileExists (dest ++ [fmtYear d.year, fmtYear d.year ++ '-' :: pad2 d.month])))
    ∨ (∃ ds d fs1, get_exif_date exifOf fs p = some ds ∧
        strptimeExif ds = some d ∧
        mkdirParents fs (dest ++ [fmtYear d.year, fmtYear d.year ++ '-' :: pad2 d.month]) = .ok fs1 ∧
        strptimeCompact (fmtCompact d) = none ∧
        o = .err .badParse ∧ fs' = fs1)
    ∨ (∃ ds d mt fs1 q fd, get_exif_date exifOf fs p = some ds ∧
        strptimeExif ds = some d ∧
        strptimeCompact (fmtCompact d) = some mt ∧
        assocFind fs.files p = some fd ∧
        mkdirParents fs (dest ++ [fmtYear d.year, fmtYear d.year ++ '-' :: pad2 d.month]) = .ok fs1 ∧
        generate_unique_filename digest (utime fs1 p now mt) (fmtBase d) (extOf p)
          (dest ++ [fmtYear d.year, fmtYear d.year ++ '-' :: pad2 d.month]) p = some (.dup q) ∧
        o = .ok (.skippedDuplicate p q) ∧ fs' = utime fs1 p now mt)
    ∨ (∃ ds d mt fs1 q fd, get_exif_date exifOf fs p = some ds ∧
        strptimeExif ds = some d ∧
        strptimeCompact (fmtCompact d) = some mt ∧
        assocFind fs.files p = some fd ∧
        mkdirParents fs (dest ++ [fmtYear d.year, fmtYear d.year ++ '-' :: pad2 d.month]) = .ok fs1 ∧
        generate_unique_filename digest (utime fs1 p now mt) (fmtBase d) (extOf p)
          (dest ++ [fmtYear d.year, fmtYear d.year ++ '-' :: pad2 d.month]) p = some (.fresh q) ∧
        o = .ok (.placed p q) ∧
        fs' = { files := assocErase (assocSet (utime fs1 p now mt).files q
                  ⟨fd.content, mt, now⟩) p,
                dirs := fs1.dirs }) := by
  simp only [process_file] at h
  split at h
  · next hge =>
    exact Or.inl ⟨(pair_eq_snd h).symm, (pair_eq_fst h).symm, hge⟩
  · next ds hge =>
    split at h
    · next hfd =>
      exact Or.inr (Or.inl ⟨ds, hge, hfd, (pair_eq_snd h).symm, (pair_eq_fst h).symm⟩)
    · next info hfd =>
      obtain ⟨d, hsp, hval, hinfo⟩ := format_date_inv ds info hfd
      subst hinfo
      dsimp only at h
      obtain ⟨fd, hfdp⟩ := get_exif_some_file exifOf fs p ds hge
      split at h
      · next e hmk =>
        have he := mkdirParents_error _ _ _ hmk
        subst he
        exact Or.inr (Or.inr (Or.inl
          ⟨ds, d, hge, hsp, (pair_eq_snd h).symm, (pair_eq_fst h).symm, hmk⟩))
      · next fs1 hmk =>
        obtain ⟨hf1, hd1⟩ := mkdirParents_ok fs fs1 _ hmk
        split at h
        · next hsc =>
          exact Or.inr (Or.inr (Or.inr (Or.inl
            ⟨ds, d, fs1, hge, hsp, hmk, hsc, (pair_eq_snd h).symm,
             (pair_eq_fst h).symm⟩)))
        · next mt hsc =>
          have hp2 : assocFind (utime fs1 p now mt).files p =
              some ⟨fd.content, mt, now⟩ := by
            show assocFind (assocUpdate fs1.files p _) p = _
            rw [assocFind_update_self, hf1, hfdp]
            rfl
          split at h
          · next hguf =>
            exact absurd hguf (generate_unique_filename_some _ _ _ _ _ _)
          · next q hguf =>
            exact Or.inr (Or.inr (Or.inr (Or.inr (Or.inl
              ⟨ds, d, mt, fs1, q, fd, hge, hsp, hsc, hfdp, hmk, hguf,
                (pair_eq_snd h).symm, (pair_eq_fst h).symm⟩))))
          · next q hguf =>
            obtain ⟨k, hk, hq, hnex, hprobe⟩ :=
              gufLoop_fresh digest (utime fs1 p now mt) (fmtBase d) (extOf p)
                (dest ++ [fmtYear d.year, fmtYear d.year ++ '-' :: pad2 d.month]) p
                _ _ q hguf
            have hqne : q ≠ p := by
              intro hqp
              apply hnex
              rw [hqp]
              exact Or.inl (by rw [hp2]; rfl)
            split at h
            · next e hcp =>
              unfold copy2 at hcp
              rw [hp2] at hcp
              have hqd : q ∉ (utime fs1 p now mt).dirs := fun hm => hnex (Or.inr hm)
              simp [hqd] at hcp
            · next fs3 hcp =>
              obtain ⟨fd3, hfd3, hfs3⟩ := copy2_ok _ _ _ _ hcp
              rw [hp2] at hfd3
              have hfd3e : fd3 = ⟨fd.content, mt, now⟩ := (Option.some.inj hfd3).symm
              subst hfd3e
              split at h
              · next e hrm =>
                rw [hfs3] at hrm
                unfold removeFile at hrm
                dsimp only at hrm
                rw [assocFind_set_ne _ _ _ _ (Ne.symm hqne), hp2] at hrm
                simp at hrm
              · next fs4 hrm =>
                have hfs4 := removeFile_ok _ _ _ hrm
                refine Or.inr (Or.inr (Or.inr (Or.inr (Or.inr
                  ⟨ds, d, mt, fs1, q, fd, hge, hsp, hsc, hfdp, hmk, hguf,
                    (pair_eq_snd h).symm, ?_⟩))))
                rw [(pair_eq_fst h).symm, hfs4, hfs3]
                rfl

example : strptimeExif "2023:05:14 10:30:00".toList =
    some ⟨2023, 5, 14, 10, 30, 0⟩ := by decide

example : strptimeExif "2023:5:14 10:30:00".toList =
    some ⟨2023, 5, 14, 10, 30, 0⟩ := by decide

example : strptimeExif "2023:05:14  10:30:00".toList =
    some ⟨2023, 5, 14, 10, 30, 0⟩ := by decide

example : strptimeExif "2023:05:14\t10:30:00".toList =
    some ⟨2023, 5, 14, 10, 30, 0⟩ := by decide

example : strptimeExif "2023:05: 4 10:30:00".toList =
    some ⟨2023, 5, 4, 10, 30, 0⟩ := by decide

example : strptimeExif "0999:05:14 10:30:00".toList =
    some ⟨999, 5, 14, 10, 30, 0⟩ := by decide

example : fmtCompact ⟨999, 5, 14, 10, 30, 0⟩ = "99905141030.00".toList := by
  decide

example : strptimeCompact "99905141030.00".toList =
    some ⟨9990, 5, 14, 10, 30, 0⟩ := by decide

example : strptimeCompact (fmtCompact ⟨1, 1, 1, 0, 0, 0⟩) = none := by decide

example : strptimeExif "2023:13:14 10:30:00".toList = none := by decide

example : strptimeExif "2023:02:30 10:30:00".toList = none := by decide

example : strptimeCompact "202305141030.00".toList =
    some ⟨2023, 5, 14, 10, 30, 0⟩ := by decide

example : (format_date "2023:05:14 10:30:00".toList).map (·.timestamp) =
    some "20230514_103000".toList := by decide

/-!
## Claim theorems
-/

theorem firstDateTag_eq_firstNonEmpty (l : List (Nat × Str)) :
    ∀ ts : List Nat,
      firstDateTag ts l = firstNonEmpty (ts.map fun t => l.lookup t) := by
  intro ts
  induction ts with
  | nil => rfl
  | cons t ts ih =>
    simp only [firstDateTag, List.map_cons]
    cases l.lookup t with
    | none => simpa [firstNonEmpty] using ih
    | some v =>
      by_cases hv : v = [] <;> simp [firstNonEmpty, hv, ih]

/-- C4: the collision-probing loop of the Destination Namer terminates on
every input: it returns either a duplicate-skip naming an existing identical
regular file, or — after finitely many strictly increasing numeric
suffixes — a candidate path at which nothing exists.  The suffix index is
bounded by the number of recorded paths. -/
theorem c4_namer_terminates (digest : List Nat → Nat) (fs : FS)
    (base ext : Str) (dd src : FPath) :
    ∃ r, generate_unique_filename digest fs base ext dd src = some r ∧
      (∀ p, r = .dup p → pathExists fs p ∧ isFile fs p ∧
        digest (contentAt fs p) = digest (contentAt fs src) ∧
        ∃ k, k ≤ fsSize fs ∧ p = dd ++ [candName base ext k]) ∧
      (∀ p, r = .fresh p → ¬pathExists fs p ∧
        ∃ k, k ≤ fsSize fs ∧ p = dd ++ [candName base ext k]) := by
  cases hg : generate_unique_filename digest fs base ext dd src with
  | none => exact absurd hg (generate_unique_filename_some _ _ _ _ _ _)
  | some r =>
    refine ⟨r, rfl, ?_, ?_⟩
    · intro p hr
      subst hr
      obtain ⟨k, hk, hp, hfi, hdi⟩ := gufLoop_dup digest fs base ext dd src _ _ p hg
      exact ⟨Or.inl hfi, hfi, hdi, k, by omega, by simpa using hp⟩
    · intro p hr
      subst hr
      obtain ⟨k, hk, hp, hnex, _⟩ := gufLoop_fresh digest fs base ext dd src _ _ p hg
      exact ⟨hnex, k, by omega, by simpa using hp⟩

theorem c4_witness :
    ¬pathExists cleanFs dstBase ∧
    ∃ k, k ≤ fsSize cleanFs ∧
      dstBase = (["o".toList, "2023".toList, "2023-05".toList]) ++
        [candName "20230514_103000".toList "jpg".toList k] := by
  obtain ⟨r, hr, _, hfresh⟩ := c4_namer_terminates wDigest cleanFs
    "20230514_103000".toList "jpg".toList
    (["o".toList, "2023".toList, "2023-05".toList]) srcA
  have he : generate_unique_filename wDigest cleanFs "20230514_103000".toList
      "jpg".toList (["o".toList, "2023".toList, "2023-05".toList]) srcA =
      some (.fresh dstBase) := by decide
  exact hfresh dstBase (Option.some.inj (hr.symm.trans he))

/-- C10: a non-file entry (for example a directory) at a candidate path is
never returned by the Destination Namer: a duplicate-skip always names a
regular file, a fresh result is a path at which nothing exists (so non-file
entries are never overwritten), and the probing loop steps over an existing
non-file candidate straight to the next numeric suffix without comparing
checksums. -/
theorem c10_nonfile_never_matched (digest : List Nat → Nat) (fs : FS)
    (base ext : Str) (dd src : FPath) (fuel counter : Nat) (p : FPath) :
    (generate_unique_filename digest fs base ext dd src = some (.dup p) →
      isFile fs p) ∧
    (generate_unique_filename digest fs base ext dd src = some (.fresh p) →
      ¬pathExists fs p) ∧
    (pathExists fs (dd ++ [candName base ext counter]) →
      ¬isFile fs (dd ++ [candName base ext counter]) →
      gufLoop digest fs base ext dd src (fuel + 1) counter =
        gufLoop digest fs base ext dd src fuel (counter + 1)) := by
  refine ⟨?_, ?_, ?_⟩
  · intro hg
    obtain ⟨k, _, _, hfi, _⟩ := gufLoop_dup digest fs base ext dd src _ _ p hg
    exact hfi
  · intro hg
    obtain ⟨k, _, _, hnex, _⟩ := gufLoop_fresh digest fs base ext dd src _ _ p hg
    exact hnex
  · intro hex hnf
    simp only [gufLoop]
    rw [if_pos hex, if_neg hnf]

theorem c10_witness :
    gufLoop wDigest dirCandFs "20230514_103000".toList "jpg".toList
      (["o".toList, "2023".toList, "2023-05".toList]) srcA 6 0 =
    gufLoop wDigest dirCandFs "20230514_103000".toList "jpg".toList
      (["o".toList, "2023".toList, "2023-05".toList]) srcA 5 1 :=
  (c10_nonfile_never_matched wDigest dirCandFs "20230514_103000".toList
    "jpg".toList (["o".toList, "2023".toList, "2023-05".toList]) srcA 5 0
    dstBase).2.2 (by decide) (by decide)

/-- C7 (counterexample): `format_date` accepts `"2023:5:14 10:30:00"`
(single-digit month: CPython's `%m` also matches a bare `[1-9]`),
`"2023:05:14  10:30:00"` (the format's space is compiled to `\s+`), and
`"2023:05: 4 10:30:00"` (`%d` also matches ` [1-9]`), none of which match the
exact `YYYY:MM:DD HH:MM:SS` pattern — so "parses strictly against the exact
pattern, on mismatch reports invalid-format" is false as stated. -/
theorem c7_counterexample :
    (¬specStrictPattern "2023:5:14 10:30:00".toList ∧
      format_date "2023:5:14 10:30:00".toList ≠ none) ∧
    (¬specStrictPattern "2023:05:14  10:30:00".toList ∧
      format_date "2023:05:14  10:30:00".toList ≠ none) ∧
    (¬specStrictPattern "2023:05: 4 10:30:00".toList ∧
      format_date "2023:05: 4 10:30:00".toList ≠ none) := by
  decide

/-- C7 (amended): the Date Formatter parses per Python `strptime`: the
`YYYY:MM:DD HH:MM:SS` layout with each two-digit field optionally unpadded,
the day optionally space-padded, and the format's space matching a nonempty
whitespace run, validating real calendar dates; mismatches yield the
invalid-format signal (`none`) by construction of the total function.  On
success it returns the `strftime`-rendered year (unpadded — exactly four
digits when the year is at least 1000), the two-digit month, the compact
`YYYYMMDD_HHMMSS` base name, and the `formatted_date` string whose
re-parse — the filesystem timestamp used by `os.utime` — equals the parsed
date exactly when the year is at least 1000. -/
theorem c7_amended (cs : Str) (info : DateInfo)
    (h : format_date cs = some info) :
    ∃ d, strptimeExif cs = some d ∧ validDate d ∧
      info.year = fmtYear d.year ∧ info.month = pad2 d.month ∧
      info.timestamp = fmtBase d ∧
      (1000 ≤ d.year → (fmtYear d.year).length = 4 ∧
        strptimeCompact info.formatted_date = some d) := by
  obtain ⟨d, hsp, hval, hinfo⟩ := format_date_inv cs info h
  subst hinfo
  refine ⟨d, hsp, hval, rfl, rfl, rfl, fun hy => ⟨?_, ?_⟩⟩
  · have hy2 : d.year ≤ 9999 := hval.2.1
    rw [show fmtYear d.year = pad4 d.year from
      natDigits_eq_pad4 d.year hy hy2]
    rfl
  · exact strptimeCompact_fmtCompact d hval hy

theorem c7_witness :
    ∃ d, strptimeExif "2023:05:14 10:30:00".toList = some d ∧ validDate d ∧
      "2023".toList = fmtYear d.year ∧ "05".toList = pad2 d.month ∧
      "20230514_103000".toList = fmtBase d ∧
      (1000 ≤ d.year → (fmtYear d.year).length = 4 ∧
        strptimeCompact "202305141030.00".toList = some d) :=
  c7_amended "2023:05:14 10:30:00".toList
    ⟨"2023".toList, "05".toList, "202305141030.00".toList,
     "20230514_103000".toList⟩ (by decide)

/-- C6: the Metadata Date Extractor checks the date tags in the fixed
priority order 36867 (original capture), 36868 (digitized capture), 306
(generic modification time) and returns the first non-empty value unparsed;
an open failure or a missing metadata block is an absence signal; and the
absence signal does not abort the traversal — the file is reported skipped
and the walk continues with the remaining files. -/
theorem c6_exif_extractor (digest : List Nat → Nat)
    (exifOf : List Nat → ExifData) (fs : FS) (p : FPath) (rest : List FPath)
    (dest : FPath) (now : Nat) :
    (∀ fd l, assocFind fs.files p = some fd → exifOf fd.content = .tags l →
      get_exif_date exifOf fs p =
        firstNonEmpty [l.lookup 36867, l.lookup 36868, l.lookup 306]) ∧
    (∀ fd, assocFind fs.files p = some fd → exifOf fd.content = .err →
      get_exif_date exifOf fs p = none) ∧
    (assocFind fs.files p = none → get_exif_date exifOf fs p = none) ∧
    (get_exif_date exifOf fs p = none → eligible (lastComponent p) →
      traverse_files digest exifOf fs (p :: rest) dest now =
        ((traverse_files digest exifOf fs rest dest now).1,
         .skippedNoDate p :: (traverse_files digest exifOf fs rest dest now).2.1,
         (traverse_files digest exifOf fs rest dest now).2.2)) := by
  refine ⟨?_, ?_, ?_, ?_⟩
  · intro fd l hfd hex
    simp only [get_exif_date, hfd, hex]
    rw [firstDateTag_eq_firstNonEmpty]
    rfl
  · intro fd hfd hex
    simp only [get_exif_date, hfd, hex]
  · intro hfd
    simp only [get_exif_date, hfd]
  · intro hge helig
    have hpf : process_file digest exifOf fs p dest now =
        (fs, .ok (.skippedNoDate p)) := by
      simp only [process_file, hge]
    rcases ht : traverse_files digest exifOf fs rest dest now with ⟨a, b, c⟩
    simp [traverse_files, helig, hpf, ht]

theorem c6_witness :
    get_exif_date wExifSparse cleanFs srcA =
      firstNonEmpty [wTags.lookup 36867, wTags.lookup 36868, wTags.lookup 306] :=
  (c6_exif_extractor wDigest wExifSparse cleanFs srcA [] outDir 0).1
    ⟨[1], t0, 0⟩ wTags (by decide) (by decide)

/-- C2: a source file disappears only through a `Placed` outcome, whose copy
step completed first: whenever the run removes the source, the result is
`Placed` at some destination; and every `Placed` outcome leaves a
byte-identical copy (equal bytes, hence equal digest) at the destination
path while the source is gone. -/
theorem c2_remove_only_after_copy (digest : List Nat → Nat)
    (exifOf : List Nat → ExifData) (fs : FS) (p dest : FPath) (now : Nat)
    (fs' : FS) (o : StepOut) (fd : FileData)
    (hfd : assocFind fs.files p = some fd)
    (h : process_file digest exifOf fs p dest now = (fs', o)) :
    (∀ q, o = .ok (.placed p q) →
      assocFind fs'.files p = none ∧
      ∃ fd', assocFind fs'.files q = some fd' ∧ fd'.content = fd.content ∧
        digest fd'.content = digest fd.content) ∧
    (assocFind fs'.files p = none → ∃ q, o = .ok (.placed p q)) := by
  rcases process_file_inv digest exifOf fs p dest now fs' o h with
    ⟨ho, hfs, _⟩ | ⟨ds, _, _, ho, hfs⟩ | ⟨ds, d, _, _, ho, hfs, _⟩ |
    ⟨ds, d, fs1, hge, hsp, hmk, hsc, ho, hfs⟩ |
    ⟨ds, d, mt, fs1, q, fdx, hge, hsp, hsc, hfdx, hmk, hguf, ho, hfs⟩ |
    ⟨ds, d, mt, fs1, q, fdx, hge, hsp, hsc, hfdx, hmk, hguf, ho, hfs⟩
  · refine ⟨?_, ?_⟩
    · intro q hq
      rw [ho] at hq
      simp at hq
    · intro hnone
      rw [hfs, hfd] at hnone
      cases hnone
  · refine ⟨?_, ?_⟩
    · intro q hq
      rw [ho] at hq
      simp at hq
    · intro hnone
      rw [hfs, hfd] at hnone
      cases hnone
  · refine ⟨?_, ?_⟩
    · intro q hq
      rw [ho] at hq
      simp at hq
    · intro hnone
      rw [hfs, hfd] at hnone
      cases hnone
  · obtain ⟨hf1, _⟩ := mkdirParents_ok fs fs1 _ hmk
    refine ⟨?_, ?_⟩
    · intro q hq
      rw [ho] at hq
      simp at hq
    · intro hnone
      rw [hfs, hf1, hfd] at hnone
      cases hnone
  · obtain ⟨hf1, _⟩ := mkdirParents_ok fs fs1 _ hmk
    have hpp : assocFind fs'.files p = some ⟨fdx.content, mt, now⟩ := by
      rw [hfs]
      show assocFind (assocUpdate fs1.files p _) p = _
      rw [assocFind_update_self, hf1, hfdx]
      rfl
    refine ⟨?_, ?_⟩
    · intro q' hq
      rw [ho] at hq
      simp at hq
    · intro hnone
      rw [hpp] at hnone
      cases hnone
  · obtain ⟨hf1, _⟩ := mkdirParents_ok fs fs1 _ hmk
    have hfde : fdx = fd := Option.some.inj (hfdx.symm.trans hfd)
    subst hfde
    have hp2 : assocFind (utime fs1 p now mt).files p =
        some ⟨fdx.content, mt, now⟩ := by
      show assocFind (assocUpdate fs1.files p _) p = _
      rw [assocFind_update_self, hf1, hfdx]
      rfl
    obtain ⟨k, hk, hq, hnex, _⟩ := gufLoop_fresh digest (utime fs1 p now mt)
      (fmtBase d) (extOf p) _ p _ _ q hguf
    have hqne : q ≠ p := by
      intro hqp
      apply hnex
      rw [hqp]
      exact Or.inl (by rw [hp2]; rfl)
    refine ⟨?_, ?_⟩
    · intro q' hq'
      rw [ho] at hq'
      have hqq : q = q' := by simpa using hq'
      subst hqq
      constructor
      · rw [hfs]
        dsimp only
        rw [assocFind_erase_self]
      · refine ⟨⟨fdx.content, mt, now⟩, ?_, rfl, rfl⟩
        rw [hfs]
        dsimp only
        rw [assocFind_erase_ne _ _ _ hqne, assocFind_set_self]
    · intro _
      exact ⟨q, ho⟩

theorem c2_witness :
    assocFind (process_file wDigest wExif cleanFs srcA outDir 7).1.files
      srcA = none ∧
    ∃ fd', assocFind (process_file wDigest wExif cleanFs srcA outDir 7).1.files
        dstBase = some fd' ∧
      fd'.content = [1] ∧ wDigest fd'.content = wDigest [1] :=
  (c2_remove_only_after_copy wDigest wExif cleanFs srcA outDir 7
    (process_file wDigest wExif cleanFs srcA outDir 7).1
    (process_file wDigest wExif cleanFs srcA outDir 7).2
    ⟨[1], t0, 0⟩ (by decide) rfl).1 dstBase (by decide)

/-- C5 (counterexample): for the valid capture date `0999:05:14 10:30:00`,
`strftime("%Y")` renders the year unpadded, so the file is placed under the
three-character year directory `999` and — because the compact string
`99905141030.00` re-parses with `%Y` grabbing four digits — the destination's
modification time is 9990-05-14, not the capture date: both the claimed
`<YYYY>` path format and mtime-equals-capture-date fail. -/
theorem c5_counterexample :
    strptimeExif "0999:05:14 10:30:00".toList = some d999 ∧
    (process_file wDigest wExif999 cleanFs srcA outDir 7).2 =
      .ok (.placed srcA dst999) ∧
    assocFind (process_file wDigest wExif999 cleanFs srcA outDir 7).1.files
      dst999 = some ⟨[1], d9990, 7⟩ ∧
    d9990 ≠ d999 := by
  decide

/-- C5 (amended): for a placed file whose parsed capture year is at least
1000, the destination path is
`dest/YYYY/YYYY-MM/YYYYMMDD_HHMMSS.ext` — four-digit year, lowercased source
extension — or a numbered-suffix variant; the destination holds the source's
bytes (so the digests agree) with modification time equal to the capture
date; and the source file no longer exists.  (For earlier years the year
renders unpadded and the modification time comes from re-parsing the
unpadded compact string, which shifts or rejects the date.) -/
theorem c5_placed_postconditions (digest : List Nat → Nat)
    (exifOf : List Nat → ExifData) (fs : FS) (p dest : FPath) (now : Nat)
    (fs' : FS) (q : FPath) (fd : FileData) (ds : Str) (d : PDateTime)
    (hfd : assocFind fs.files p = some fd)
    (hge : get_exif_date exifOf fs p = some ds)
    (hsp : strptimeExif ds = some d)
    (hyr : 1000 ≤ d.year)
    (h : process_file digest exifOf fs p dest now = (fs', .ok (.placed p q))) :
    ∃ k,
      q = (dest ++ [fmtYear d.year, fmtYear d.year ++ '-' :: pad2 d.month]) ++
        [candName (fmtBase d) (extOf p) k] ∧
      (fmtYear d.year).length = 4 ∧
      assocFind fs'.files q = some ⟨fd.content, d, now⟩ ∧
      digest (contentAt fs' q) = digest fd.content ∧
      assocFind fs'.files p = none := by
  have hval := strptimeExif_valid ds d hsp
  have hy2 : d.year ≤ 9999 := hval.2.1
  rcases process_file_inv digest exifOf fs p dest now fs' (.ok (.placed p q)) h with
    ⟨ho, _, _⟩ | ⟨ds', _, _, ho, _⟩ | ⟨ds', d', _, _, ho, _, _⟩ |
    ⟨ds', d', _, _, _, _, _, ho, _⟩ |
    ⟨ds', d', mt, fs1, q', fdx, hge', hsp', hsc, hfdx, hmk, hguf, ho, hfs⟩ |
    ⟨ds', d', mt, fs1, q', fdx, hge', hsp', hsc, hfdx, hmk, hguf, ho, hfs⟩
  · simp at ho
  · simp at ho
  · simp at ho
  · simp at ho
  · simp at ho
  · have hds : ds = ds' := Option.some.inj (hge.symm.trans hge')
    subst hds
    have hdd : d = d' := Option.some.inj (hsp.symm.trans hsp')
    subst hdd
    have hmt : mt = d :=
      (Option.some.inj
        ((strptimeCompact_fmtCompact d hval hyr).symm.trans hsc)).symm
    rw [hmt] at hguf hfs
    have hqq : q = q' := by simpa using ho
    subst hqq
    obtain ⟨hf1, _⟩ := mkdirParents_ok fs fs1 _ hmk
    have hfde : fdx = fd := Option.some.inj (hfdx.symm.trans hfd)
    subst hfde
    have hp2 : assocFind (utime fs1 p now d).files p =
        some ⟨fdx.content, d, now⟩ := by
      show assocFind (assocUpdate fs1.files p _) p = _
      rw [assocFind_update_self, hf1, hfdx]
      rfl
    obtain ⟨k, hk, hq, hnex, _⟩ := gufLoop_fresh digest (utime fs1 p now d)
      (fmtBase d) (extOf p) _ p _ _ q hguf
    have hqne : q ≠ p := by
      intro hqp
      apply hnex
      rw [hqp]
      exact Or.inl (by rw [hp2]; rfl)
    have hfind : assocFind fs'.files q = some ⟨fdx.content, d, now⟩ := by
      rw [hfs]
      dsimp only
      rw [assocFind_erase_ne _ _ _ hqne, assocFind_set_self]
    refine ⟨k, by simpa using hq, ?_, hfind, ?_, ?_⟩
    · rw [show fmtYear d.year = pad4 d.year from
        natDigits_eq_pad4 d.year hyr hy2]
      rfl
    · unfold contentAt
      rw [hfind]
    · rw [hfs]
      dsimp only
      rw [assocFind_erase_self]

theorem c5_witness :
    ∃ k,
      dstBase = (outDir ++ [fmtYear d2023.year,
        fmtYear d2023.year ++ '-' :: pad2 d2023.month]) ++
        [candName (fmtBase d2023) (extOf srcA) k] ∧
      (fmtYear d2023.year).length = 4 ∧
      assocFind (process_file wDigest wExif cleanFs srcA outDir 7).1.files
        dstBase = some ⟨[1], d2023, 7⟩ ∧
      wDigest (contentAt (process_file wDigest wExif cleanFs srcA outDir 7).1
        dstBase) = wDigest [1] ∧
      assocFind (process_file wDigest wExif cleanFs srcA outDir 7).1.files
        srcA = none :=
  c5_placed_postconditions wDigest wExif cleanFs srcA outDir 7
    (process_file wDigest wExif cleanFs srcA outDir 7).1 dstBase
    ⟨[1], t0, 0⟩ "2023:05:14 10:30:00".toList d2023
    (by decide) (by decide) (by decide) (by decide) (by decide)

/-- C9 (counterexample): the mutation indeed happens before the duplicate
check, but for the valid capture date `0999:05:14 10:30:00` the modification
time written by `os.utime` is the re-parse of the unpadded compact string
`99905141030.00`, i.e. 9990-05-14 — not the capture date — so the claim's
"modification time is set to the capture date" is false as stated. -/
theorem c9_counterexample :
    strptimeExif "0999:05:14 10:30:00".toList = some d999 ∧
    (process_file wDigest wExif999 dup999Fs srcA outDir 7).2 =
      .ok (.skippedDuplicate srcA dst999) ∧
    assocFind (process_file wDigest wExif999 dup999Fs srcA outDir 7).1.files
      srcA = some ⟨[1], d9990, 7⟩ ∧
    d9990 ≠ d999 := by
  decide

/-- C9 (amended): for a valid capture date whose year is at least 1000, the
destination directories are created and the source file's times are
rewritten (modification time to the capture date, access time to the current
clock) before the duplicate check, so even a file whose outcome is
`SkippedDuplicate` has its source modification time permanently mutated and
the destination directories present, while its bytes — and every other
file — are untouched.  (For earlier years the same mutation happens, but the
modification time written is the re-parse of the unpadded compact string,
not the capture date.) -/
theorem c9_skip_still_mutates (digest : List Nat → Nat)
    (exifOf : List Nat → ExifData) (fs : FS) (p dest : FPath) (now : Nat)
    (fs' : FS) (q : FPath) (fd : FileData) (ds : Str) (d : PDateTime)
    (hfd : assocFind fs.files p = some fd)
    (hge : get_exif_date exifOf fs p = some ds)
    (hsp : strptimeExif ds = some d)
    (hyr : 1000 ≤ d.year)
    (h : process_file digest exifOf fs p dest now =
      (fs', .ok (.skippedDuplicate p q))) :
    assocFind fs'.files p = some ⟨fd.content, d, now⟩ ∧
    (dest ++ [fmtYear d.year, fmtYear d.year ++ '-' :: pad2 d.month]) ∈ fs'.dirs ∧
    (dest ++ [fmtYear d.year]) ∈ fs'.dirs ∧
    (∀ r, r ≠ p → assocFind fs'.files r = assocFind fs.files r) := by
  have hval := strptimeExif_valid ds d hsp
  rcases process_file_inv digest exifOf fs p dest now fs'
      (.ok (.skippedDuplicate p q)) h with
    ⟨ho, _, _⟩ | ⟨ds', _, _, ho, _⟩ | ⟨ds', d', _, _, ho, _, _⟩ |
    ⟨ds', d', _, _, _, _, _, ho, _⟩ |
    ⟨ds', d', mt, fs1, q', fdx, hge', hsp', hsc, hfdx, hmk, hguf, ho, hfs⟩ |
    ⟨ds', d', mt, fs1, q', fdx, hge', hsp', hsc, hfdx, hmk, hguf, ho, hfs⟩
  · simp at ho
  · simp at ho
  · simp at ho
  · simp at ho
  · have hds : ds = ds' := Option.some.inj (hge.symm.trans hge')
    subst hds
    have hdd : d = d' := Option.some.inj (hsp.symm.trans hsp')
    subst hdd
    have hmt : mt = d :=
      (Option.some.inj
        ((strptimeCompact_fmtCompact d hval hyr).symm.trans hsc)).symm
    rw [hmt] at hguf hfs
    obtain ⟨hf1, hd1⟩ := mkdirParents_ok fs fs1 _ hmk
    have hfde : fdx = fd := Option.some.inj (hfdx.symm.trans hfd)
    subst hfde
    have hdirs : fs'.dirs =
        (dest ++ [fmtYear d.year, fmtYear d.year ++ '-' :: pad2 d.month]).inits ++
          fs.dirs := by
      rw [hfs]
      exact hd1
    refine ⟨?_, ?_, ?_, ?_⟩
    · rw [hfs]
      show assocFind (assocUpdate fs1.files p _) p = _
      rw [assocFind_update_self, hf1, hfdx]
      rfl
    · rw [hdirs]
      exact List.mem_append_left _ (self_mem_inits _)
    · rw [hdirs]
      refine List.mem_append_left _ ?_
      have he : dest ++ [fmtYear d.year, fmtYear d.year ++ '-' :: pad2 d.month] =
          (dest ++ [fmtYear d.year]) ++
            [fmtYear d.year ++ '-' :: pad2 d.month] := by
        simp
      rw [he]
      exact dropLast_mem_inits _ _
    · intro r hr
      rw [hfs]
      show assocFind (assocUpdate fs1.files p _) r = _
      rw [assocFind_update_ne _ _ _ _ hr, hf1]
  · simp at ho

theorem c9_witness :
    assocFind (process_file wDigest wExif dupFs srcA outDir 7).1.files srcA =
      some ⟨[1], d2023, 7⟩ ∧
    (outDir ++ [fmtYear d2023.year,
      fmtYear d2023.year ++ '-' :: pad2 d2023.month]) ∈
      (process_file wDigest wExif dupFs srcA outDir 7).1.dirs ∧
    (outDir ++ [fmtYear d2023.year]) ∈
      (process_file wDigest wExif dupFs srcA outDir 7).1.dirs ∧
    (∀ r, r ≠ srcA →
      assocFind (process_file wDigest wExif dupFs srcA outDir 7).1.files r =
        assocFind dupFs.files r) :=
  c9_skip_still_mutates wDigest wExif dupFs srcA outDir 7
    (process_file wDigest wExif dupFs srcA outDir 7).1 dstBase
    ⟨[1], t0, 0⟩ "2023:05:14 10:30:00".toList d2023
    (by decide) (by decide) (by decide) (by decide) (by decide)

/-- C3 (counterexample): the Namer only probes the candidate names
`base.ext, base_1.ext, …` in order; content-identical files under any other
name are invisible to it.  Starting from a destination directory holding the
source's exact bytes at `20230514_103000_1.jpg` while the base name is free,
the run places a second byte-identical copy at `20230514_103000.jpg` — two
destination files with equal digest in the same target directory, so the
claim is false as stated. -/
theorem c3_counterexample :
    (process_file wDigest wExif c3fs srcA outDir 0).2 =
      .ok (.placed srcA dstBase) ∧
    assocFind (process_file wDigest wExif c3fs srcA outDir 0).1.files
      dstBase = some ⟨[1], d2023, 0⟩ ∧
    assocFind (process_file wDigest wExif c3fs srcA outDir 0).1.files
      dstOne = some ⟨[1], t0, 0⟩ ∧
    wDigest (contentAt (process_file wDigest wExif c3fs srcA outDir 0).1
      dstBase) =
      wDigest (contentAt (process_file wDigest wExif c3fs srcA outDir 0).1
        dstOne) := by
  decide

/-- C3 (amended): the Namer never overwrites — the placement target existed
neither as a file nor as a directory beforehand — and no file at a PROBED
candidate name (`base.ext` through `base_{k-1}.ext`) shares the source's
digest; a same-digest file may still sit under an unprobed name in the same
directory. -/
theorem c3_no_overwrite_probed_distinct (digest : List Nat → Nat)
    (exifOf : List Nat → ExifData) (fs : FS) (p dest : FPath) (now : Nat)
    (fs' : FS) (q : FPath) (fd : FileData)
    (hfd : assocFind fs.files p = some fd)
    (h : process_file digest exifOf fs p dest now = (fs', .ok (.placed p q))) :
    ∃ ds d k,
      get_exif_date exifOf fs p = some ds ∧
      strptimeExif ds = some d ∧
      q = (dest ++ [fmtYear d.year, fmtYear d.year ++ '-' :: pad2 d.month]) ++
        [candName (fmtBase d) (extOf p) k] ∧
      assocFind fs.files q = none ∧ q ∉ fs.dirs ∧
      ∀ j, j < k → ∀ fdj,
        assocFind fs.files
          ((dest ++ [fmtYear d.year, fmtYear d.year ++ '-' :: pad2 d.month]) ++
            [candName (fmtBase d) (extOf p) j]) = some fdj →
        digest fdj.content ≠ digest fd.content := by
  rcases process_file_inv digest exifOf fs p dest now fs' (.ok (.placed p q)) h with
    ⟨ho, _, _⟩ | ⟨ds, _, _, ho, _⟩ | ⟨ds, d, _, _, ho, _, _⟩ |
    ⟨ds, d, _, _, _, _, _, ho, _⟩ |
    ⟨ds, d, mt, fs1, q', fdx, hge, hsp, hsc, hfdx, hmk, hguf, ho, hfs⟩ |
    ⟨ds, d, mt, fs1, q', fdx, hge, hsp, hsc, hfdx, hmk, hguf, ho, hfs⟩
  · simp at ho
  · simp at ho
  · simp at ho
  · simp at ho
  · simp at ho
  · have hqq : q = q' := by simpa using ho
    subst hqq
    obtain ⟨hf1, _⟩ := mkdirParents_ok fs fs1 _ hmk
    have hfde : fdx = fd := Option.some.inj (hfdx.symm.trans hfd)
    subst hfde
    obtain ⟨k, hk, hq, hnex, hprobe⟩ := gufLoop_fresh digest (utime fs1 p now mt)
      (fmtBase d) (extOf p) _ p _ _ q hguf
    have hcf : ∀ r, contentAt (utime fs1 p now mt) r = contentAt fs r := by
      intro r
      rw [contentAt_utime]
      unfold contentAt
      rw [hf1]
    have hnf : assocFind fs.files q = none := by
      cases hfq : assocFind fs.files q with
      | none => rfl
      | some fdq =>
        exfalso
        apply hnex
        refine Or.inl ((isFile_utime fs1 p q now mt).2 ?_)
        show (assocFind fs1.files q).isSome = true
        rw [hf1, hfq]
        rfl
    have hnd : q ∉ fs.dirs := by
      intro hm
      apply hnex
      refine Or.inr ?_
      show q ∈ fs1.dirs
      obtain ⟨_, hd1⟩ := mkdirParents_ok fs fs1 _ hmk
      rw [hd1]
      exact List.mem_append_right _ hm
    refine ⟨ds, d, k, hge, hsp, by simpa using hq, hnf, hnd, ?_⟩
    intro j hj fdj hfdj
    obtain ⟨hex, hdig⟩ := hprobe j hj
    have hjz : (0 : Nat) + j = j := Nat.zero_add j
    rw [hjz] at hex hdig
    have hfile : isFile (utime fs1 p now mt)
        ((dest ++ [fmtYear d.year, fmtYear d.year ++ '-' :: pad2 d.month]) ++
          [candName (fmtBase d) (extOf p) j]) := by
      refine (isFile_utime fs1 p _ now mt).2 ?_
      show (assocFind fs1.files _).isSome = true
      rw [hf1, hfdj]
      rfl
    have := hdig hfile
    rw [hcf, hcf] at this
    have hc1 : contentAt fs
        ((dest ++ [fmtYear d.year, fmtYear d.year ++ '-' :: pad2 d.month]) ++
          [candName (fmtBase d) (extOf p) j]) = fdj.content := by
      unfold contentAt
      rw [hfdj]
    have hc2 : contentAt fs p = fdx.content := by
      unfold contentAt
      rw [hfd]
    rw [hc1, hc2] at this
    exact this

theorem c3_witness :
    ∃ ds d k,
      get_exif_date wExif collideFs srcA = some ds ∧
      strptimeExif ds = some d ∧
      dstOne = (outDir ++ [fmtYear d.year,
        fmtYear d.year ++ '-' :: pad2 d.month]) ++
        [candName (fmtBase d) (extOf srcA) k] ∧
      assocFind collideFs.files dstOne = none ∧ dstOne ∉ collideFs.dirs ∧
      ∀ j, j < k → ∀ fdj,
        assocFind collideFs.files
          ((outDir ++ [fmtYear d.year, fmtYear d.year ++ '-' :: pad2 d.month]) ++
            [candName (fmtBase d) (extOf srcA) j]) = some fdj →
        wDigest fdj.content ≠ wDigest [1] :=
  c3_no_overwrite_probed_distinct wDigest wExif collideFs srcA outDir 7
    (process_file wDigest wExif collideFs srcA outDir 7).1 dstOne
    ⟨[1], t0, 0⟩ (by decide) (by decide)

/-- C8: re-placing a byte-identical file into an already-organized
destination is idempotent on the destination tree: the outcome is
`SkippedDuplicate` naming the already-placed file at the base candidate
name, every path other than the source keeps its exact entry (no new
destination file, existing one unaltered), and the second source file is not
deleted — only its times are rewritten (to the `utime` date `mt`, the
re-parse of the compact string, which equals the capture date for years
1000–9999). -/
theorem c8_idempotent_rerun (digest : List Nat → Nat)
    (exifOf : List Nat → ExifData) (fs : FS) (p dest : FPath) (now : Nat)
    (fd fd0 : FileData) (ds : Str) (d mt : PDateTime)
    (hfd : assocFind fs.files p = some fd)
    (hge : get_exif_date exifOf fs p = some ds)
    (hsp : strptimeExif ds = some d)
    (hmt : strptimeCompact (fmtCompact d) = some mt)
    (hmkok : ∀ r ∈ (dest ++ [fmtYear d.year,
        fmtYear d.year ++ '-' :: pad2 d.month]).inits,
      assocFind fs.files r = none)
    (hdst : assocFind fs.files
        ((dest ++ [fmtYear d.year, fmtYear d.year ++ '-' :: pad2 d.month]) ++
          [candName (fmtBase d) (extOf p) 0]) = some fd0)
    (hsame : fd0.content = fd.content)
    (hne : (dest ++ [fmtYear d.year, fmtYear d.year ++ '-' :: pad2 d.month]) ++
        [candName (fmtBase d) (extOf p) 0] ≠ p) :
    ∃ fs', process_file digest exifOf fs p dest now =
      (fs', .ok (.skippedDuplicate p
        ((dest ++ [fmtYear d.year, fmtYear d.year ++ '-' :: pad2 d.month]) ++
          [candName (fmtBase d) (extOf p) 0]))) ∧
      (∀ r, r ≠ p → assocFind fs'.files r = assocFind fs.files r) ∧
      assocFind fs'.files p = some ⟨fd.content, mt, now⟩ := by
  have hfmt : format_date ds =
      some ⟨fmtYear d.year, pad2 d.month, fmtCompact d, fmtBase d⟩ := by
    unfold format_date
    rw [hsp]
  have hc : ((dest ++ [fmtYear d.year,
      fmtYear d.year ++ '-' :: pad2 d.month]).inits.any
        fun r => (assocFind fs.files r).isSome) = false := by
    rw [List.any_eq_false]
    intro r hr
    rw [hmkok r hr]
    decide
  have hmk : mkdirParents fs
      (dest ++ [fmtYear d.year, fmtYear d.year ++ '-' :: pad2 d.month]) =
      .ok { fs with dirs := (dest ++ [fmtYear d.year,
        fmtYear d.year ++ '-' :: pad2 d.month]).inits ++ fs.dirs } := by
    unfold mkdirParents
    rw [hc]
    rfl
  set fs1 : FS := { fs with dirs := (dest ++ [fmtYear d.year,
    fmtYear d.year ++ '-' :: pad2 d.month]).inits ++ fs.dirs } with hfs1
  set fs2 : FS := utime fs1 p now mt with hfs2
  have hfind0 : assocFind fs2.files
      ((dest ++ [fmtYear d.year, fmtYear d.year ++ '-' :: pad2 d.month]) ++
        [candName (fmtBase d) (extOf p) 0]) = some fd0 := by
    rw [hfs2]
    show assocFind (assocUpdate fs1.files p _) _ = _
    rw [assocFind_update_ne _ _ _ _ hne]
    exact hdst
  have hfindp : assocFind fs2.files p = some ⟨fd.content, mt, now⟩ := by
    rw [hfs2]
    show assocFind (assocUpdate fs1.files p _) p = _
    rw [assocFind_update_self]
    show (assocFind fs.files p).map _ = _
    rw [hfd]
    rfl
  have hex : pathExists fs2
      ((dest ++ [fmtYear d.year, fmtYear d.year ++ '-' :: pad2 d.month]) ++
        [candName (fmtBase d) (extOf p) 0]) :=
    Or.inl (by rw [hfind0]; rfl)
  have hif : isFile fs2
      ((dest ++ [fmtYear d.year, fmtYear d.year ++ '-' :: pad2 d.month]) ++
        [candName (fmtBase d) (extOf p) 0]) := by
    show (assocFind fs2.files _).isSome = true
    rw [hfind0]
    rfl
  have hdg : digest (contentAt fs2
      ((dest ++ [fmtYear d.year, fmtYear d.year ++ '-' :: pad2 d.month]) ++
        [candName (fmtBase d) (extOf p) 0])) =
      digest (contentAt fs2 p) := by
    have h1 : contentAt fs2
        ((dest ++ [fmtYear d.year, fmtYear d.year ++ '-' :: pad2 d.month]) ++
          [candName (fmtBase d) (extOf p) 0]) = fd0.content := by
      unfold contentAt
      rw [hfind0]
    have h2 : contentAt fs2 p = fd.content := by
      unfold contentAt
      rw [hfindp]
    rw [h1, h2, hsame]
  have hguf : generate_unique_filename digest fs2 (fmtBase d) (extOf p)
      (dest ++ [fmtYear d.year, fmtYear d.year ++ '-' :: pad2 d.month]) p =
      some (.dup ((dest ++ [fmtYear d.year,
        fmtYear d.year ++ '-' :: pad2 d.month]) ++
        [candName (fmtBase d) (extOf p) 0])) := by
    unfold generate_unique_filename
    simp only [gufLoop]
    rw [if_pos hex, if_pos hif, if_pos hdg]
  refine ⟨fs2, ?_, ?_, hfindp⟩
  · simp only [process_file, hge, hfmt, hmk, hmt, hguf]
  · intro r hr
    rw [hfs2]
    show assocFind (assocUpdate fs1.files p _) r = _
    rw [assocFind_update_ne _ _ _ _ hr]

theorem c8_witness :
    ∃ fs', process_file wDigest wExif dupFs srcA outDir 7 =
      (fs', .ok (.skippedDuplicate srcA
        ((outDir ++ [fmtYear d2023.year,
          fmtYear d2023.year ++ '-' :: pad2 d2023.month]) ++
          [candName (fmtBase d2023) (extOf srcA) 0]))) ∧
      (∀ r, r ≠ srcA → assocFind fs'.files r = assocFind dupFs.files r) ∧
      assocFind fs'.files srcA = some ⟨[1], d2023, 7⟩ :=
  c8_idempotent_rerun wDigest wExif dupFs srcA outDir 7
    ⟨[1], t0, 0⟩ ⟨[1], d2023, 3⟩ "2023:05:14 10:30:00".toList d2023 d2023
    (by decide) (by decide) (by decide) (by decide) (by decide) (by decide)
    (by decide) (by decide)

/-- C1 (counterexample): with a regular file occupying `o/2023`, placing the
first eligible file hits an uncaught error in step 3 (directory creation) and
the whole run aborts: the second eligible file is never processed, no
per-file result is produced, and the state is the partial state of the
failing file — so "traversal continues to the next file" is false as
stated. -/
theorem c1_counterexample :
    traverse_files wDigest wExif c1fs [srcA, srcB] outDir 0 =
      (c1fs, [],
       some (.fileExists (["o".toList, "2023".toList, "2023-05".toList]))) := by
  decide

/-- C1 (amended): an unexpected error during steps 3–7 propagates as an
uncaught exception: the failing file is left in whatever partial state the
step produced, and the traversal ABORTS — no later file is processed — rather
than reporting per-file and continuing.  (Only metadata extraction and date
parsing, steps 1–2, are contained per file.) -/
theorem c1_error_aborts_run (digest : List Nat → Nat)
    (exifOf : List Nat → ExifData) (fs fsPartial : FS) (f : FPath)
    (rest : List FPath) (dest : FPath) (now : Nat) (e : PErr)
    (helig : eligible (lastComponent f))
    (herr : process_file digest exifOf fs f dest now = (fsPartial, .err e)) :
    traverse_files digest exifOf fs (f :: rest) dest now =
      (fsPartial, [], some e) := by
  simp [traverse_files, helig, herr]

theorem c1_witness :
    traverse_files wDigest wExif c1fs [srcA, srcB] outDir 5 =
      (c1fs, [],
       some (.fileExists (["o".toList, "2023".toList, "2023-05".toList]))) :=
  c1_error_aborts_run wDigest wExif c1fs c1fs srcA [srcB] outDir 5
    (.fileExists (["o".toList, "2023".toList, "2023-05".toList]))
    (by decide) (by decide)

end OrganizePhotos
